import Mathlib

/-!
Verification development for `yt_playlist_export.py` (dovideh/yt-playlist-export).

The Python source is shallowly embedded: strings are modelled as `List Char`
(or Lean `String` where convenient), the millisecond clock and the UUID
generator are injected as functions of a step counter, file writes are
modelled as explicit traces of file operations, and the JSON text written by
`json.dump(..., separators=(",", ":"))` (with its default `ensure_ascii=True`
escaping) is reproduced character by character.
-/

/-! ## Python text primitives -/

/-- The character set stripped by Python's `str.strip()` (characters for which
`str.isspace()` is true): 0x09-0x0D, 0x1C-0x1F, space, 0x85, NBSP, 0x1680,
0x2000-0x200A, 0x2028, 0x2029, 0x202F, 0x205F, 0x3000. -/
def pyIsSpace (c : Char) : Bool :=
  decide ((9 ≤ c.toNat ∧ c.toNat ≤ 13) ∨ (28 ≤ c.toNat ∧ c.toNat ≤ 31) ∨
    c.toNat = 32 ∨ c.toNat = 0x85 ∨ c.toNat = 0xA0 ∨ c.toNat = 0x1680 ∨
    (0x2000 ≤ c.toNat ∧ c.toNat ≤ 0x200A) ∨ c.toNat = 0x2028 ∨
    c.toNat = 0x2029 ∨ c.toNat = 0x202F ∨ c.toNat = 0x205F ∨ c.toNat = 0x3000)

/-- Python `str.strip()`: remove leading and trailing whitespace. -/
def pyStrip (l : List Char) : List Char :=
  ((l.dropWhile pyIsSpace).reverse.dropWhile pyIsSpace).reverse

/-- Membership in the `ZERO_WIDTH` regex class U+200B through U+200F plus U+FEFF
(source line 60). -/
def isZeroWidth (c : Char) : Bool :=
  decide ((0x200B ≤ c.toNat ∧ c.toNat ≤ 0x200F) ∨ c.toNat = 0xFEFF)

/-- Replacement of U+00A0 by a space, from `clean_text` (source line 65). -/
def replaceNbsp (l : List Char) : List Char :=
  l.map (fun c => if c = '\xA0' then ' ' else c)

/-- Replacement of U+2024 (one dot leader) by a dot, from `clean_text` (source line 65). -/
def replaceOneDotLeader (l : List Char) : List Char :=
  l.map (fun c => if c = '\u2024' then '.' else c)

/-- Python `ZERO_WIDTH.sub("", s)` from `clean_text` (source line 66). -/
def removeZeroWidth (l : List Char) : List Char :=
  l.filter (fun c => !(isZeroWidth c))

/-- Python `clean_text` (source lines 62-66) on an already-string input:
strip, replace NBSP by space and one-dot-leader by '.', then delete the
zero-width characters. -/
def clean_text (l : List Char) : List Char :=
  removeZeroWidth (replaceOneDotLeader (replaceNbsp (pyStrip l)))

/-- The function `clean_text` as a `String → String` function. -/
def clean_textS (s : String) : String :=
  String.mk (clean_text s.data)

/-! ### Helper lemmas about `clean_text` -/

theorem mem_pyStrip {c : Char} {l : List Char} (h : c ∈ pyStrip l) : c ∈ l := by
  unfold pyStrip at h
  rw [List.mem_reverse] at h
  have h2 := (List.dropWhile_sublist (l := (l.dropWhile pyIsSpace).reverse)
    pyIsSpace).mem h
  rw [List.mem_reverse] at h2
  exact (List.dropWhile_sublist pyIsSpace).mem h2

theorem nbsp_notMem_clean_text (l : List Char) : '\xA0' ∉ clean_text l := by
  intro h
  simp only [clean_text, removeZeroWidth, replaceOneDotLeader, replaceNbsp,
    List.map_map] at h
  have h1 := List.mem_of_mem_filter h
  rcases List.mem_map.mp h1 with ⟨a, _, hae⟩
  simp only [Function.comp] at hae
  by_cases h2 : a = '\xA0'
  · simp [h2] at hae
  · by_cases h3 : a = '\u2024'
    · simp [h2, h3] at hae
    · simp [h2, h3] at hae

theorem odl_notMem_clean_text (l : List Char) : '\u2024' ∉ clean_text l := by
  intro h
  simp only [clean_text, removeZeroWidth, replaceOneDotLeader] at h
  have h1 := List.mem_of_mem_filter h
  rcases List.mem_map.mp h1 with ⟨b, _, hbe⟩
  by_cases hb2 : b = '\u2024'
  · simp [hb2] at hbe
  · simp [hb2] at hbe

theorem zw_notMem_clean_text {c : Char} (l : List Char) (hc : isZeroWidth c = true) :
    c ∉ clean_text l := by
  intro h
  unfold clean_text removeZeroWidth at h
  have := List.of_mem_filter h
  simp [hc] at this

/-- The map `replaceNbsp` is the identity on lists without NBSP. -/
theorem replaceNbsp_eq_self {l : List Char} (h : '\xA0' ∉ l) : replaceNbsp l = l := by
  unfold replaceNbsp
  rw [show l.map (fun c => if c = '\xA0' then ' ' else c) = l.map id from ?_, List.map_id]
  apply List.map_congr_left
  intro a ha
  have : a ≠ '\xA0' := fun he => h (he ▸ ha)
  simp [this]

/-- The map `replaceOneDotLeader` is the identity on lists without U+2024. -/
theorem replaceOdl_eq_self {l : List Char} (h : '\u2024' ∉ l) :
    replaceOneDotLeader l = l := by
  unfold replaceOneDotLeader
  rw [show l.map (fun c => if c = '\u2024' then '.' else c) = l.map id from ?_, List.map_id]
  apply List.map_congr_left
  intro a ha
  have : a ≠ '\u2024' := fun he => h (he ▸ ha)
  simp [this]

/-- The filter `removeZeroWidth` is the identity on lists without zero-width characters. -/
theorem removeZeroWidth_eq_self {l : List Char} (h : ∀ c ∈ l, isZeroWidth c = false) :
    removeZeroWidth l = l := by
  unfold removeZeroWidth
  apply List.filter_eq_self.mpr
  intro a ha
  simp [h a ha]

/-- C3 counterexample input: a zero-width space followed by a space and a
letter. `str.strip()` does not strip U+200B (it is not Python whitespace), so
deleting it afterwards exposes a new leading space that only a second
application of `clean_text` removes. -/
def c3Input : List Char := ['\u200B', ' ', 'a']

/-- C3 (counterexample): `clean_text` is not idempotent. On U+200B, space, 'a'
the first application yields a leading space and the second removes it. -/
theorem C3_cleanText_not_idempotent :
    clean_text (clean_text c3Input) ≠ clean_text c3Input := by decide

/-- C3 (amended): `clean_text` is idempotent only up to a final strip —
`clean_text (clean_text x) = pyStrip (clean_text x)` for every input — and its
result contains no code point in U+200B-U+200F nor U+FEFF. -/
theorem C3_cleanText_strip_idempotent (l : List Char) :
    clean_text (clean_text l) = pyStrip (clean_text l) ∧
    ∀ c ∈ clean_text l, isZeroWidth c = false := by
  constructor
  · have hnb : '\xA0' ∉ pyStrip (clean_text l) :=
      fun h => nbsp_notMem_clean_text l (mem_pyStrip h)
    have hod : '\u2024' ∉ replaceNbsp (pyStrip (clean_text l)) := by
      rw [replaceNbsp_eq_self hnb]
      exact fun h => odl_notMem_clean_text l (mem_pyStrip h)
    have hzw : ∀ c ∈ replaceOneDotLeader (replaceNbsp (pyStrip (clean_text l))),
        isZeroWidth c = false := by
      rw [replaceNbsp_eq_self hnb, replaceOdl_eq_self]
      · intro c hc
        by_cases h : isZeroWidth c
        · exact absurd (mem_pyStrip hc) (zw_notMem_clean_text l h)
        · simpa using h
      · rw [replaceNbsp_eq_self hnb] at hod
        exact hod
    show removeZeroWidth (replaceOneDotLeader (replaceNbsp (pyStrip (clean_text l)))) = _
    rw [removeZeroWidth_eq_self hzw, replaceNbsp_eq_self hnb, replaceOdl_eq_self]
    rw [replaceNbsp_eq_self hnb] at hod
    exact hod
  · intro c hc
    by_cases h : isZeroWidth c
    · exact absurd hc (zw_notMem_clean_text l h)
    · simpa using h

/-- Witness for C3's amended statement at a concrete input. -/
theorem C3_cleanText_strip_idempotent_witness :
    clean_text (clean_text c3Input) = pyStrip (clean_text c3Input) :=
  (C3_cleanText_strip_idempotent c3Input).1

/-! ## Numeric and name helpers -/

/-- Is `c` an ASCII decimal digit? -/
def isDigit (c : Char) : Bool := decide (48 ≤ c.toNat ∧ c.toNat ≤ 57)

/-- The ASCII digit for `d < 10`. -/
def digitChar (d : Nat) : Char := Char.ofNat (48 + d)

/-- Decimal digits of `n` (most significant first, empty for 0), with
explicit fuel so that the definition is structural. -/
def natDigits : Nat → Nat → List Char
  | 0, _ => []
  | fuel + 1, n => if n = 0 then [] else natDigits fuel (n / 10) ++ [digitChar (n % 10)]

/-- Python `str(n)` for a natural number. -/
def natToChars (n : Nat) : List Char :=
  if n = 0 then ['0'] else natDigits n n

/-- Python `to_int_str` (source lines 68-71) restricted to string input: keep only the
digit characters. -/
def to_int_str (l : List Char) : List Char := l.filter isDigit

/-- Value of a digit string as read by Python `int`, via left fold. -/
def digitsVal (l : List Char) : Nat :=
  l.foldl (fun a c => a * 10 + (c.toNat - 48)) 0

/-- Python `int(s or 0)` for a digit-string `s`: empty means 0. -/
def pyIntOr0 (l : List Char) : Nat := if l = [] then 0 else digitsVal l

/-- Characters kept verbatim by `sanitize_name` (the class `A-Za-z0-9._-`,
source line 74). -/
def allowedNameChar (c : Char) : Bool :=
  decide ((65 ≤ c.toNat ∧ c.toNat ≤ 90) ∨ (97 ≤ c.toNat ∧ c.toNat ≤ 122) ∨
    (48 ≤ c.toNat ∧ c.toNat ≤ 57) ∨ c = '.' ∨ c = '_' ∨ c = '-')

/-- One pass of the `re.sub` in `sanitize_name`: each maximal run of
disallowed characters becomes a single underscore. The flag records whether
the previous character was part of a disallowed run. -/
def sanitizeRuns : List Char → Bool → List Char
  | [], _ => []
  | c :: rest, inRun =>
    if allowedNameChar c then c :: sanitizeRuns rest false
    else if inRun then sanitizeRuns rest true
    else '_' :: sanitizeRuns rest true

/-- Python `.strip("_")`. -/
def stripUnderscores (l : List Char) : List Char :=
  ((l.dropWhile (· = '_')).reverse.dropWhile (· = '_')).reverse

/-- Python `sanitize_name` (source lines 73-74). -/
def sanitize_name (l : List Char) : List Char :=
  stripUnderscores (sanitizeRuns l false)

/-- The function `sanitize_name` as a `String → String` function. -/
def sanitize_nameS (s : String) : String := String.mk (sanitize_name s.data)

/-! ## Python truthiness helpers

Python's `x or y` on strings treats `None` and `""` as falsy; on integers it
treats 0 as falsy. These helpers reproduce those `or` chains. -/

/-- Python `v or d` where `v` is an optional string and `d` a string. -/
def pyOr (v : Option String) (d : String) : String :=
  match v with
  | none => d
  | some s => if s = "" then d else s

/-- Python `s or d` for plain strings. -/
def pyOrS (s d : String) : String := if s = "" then d else s

/-- Python `a or b` for two optional strings, keeping the optionality. -/
def pyOrO (a b : Option String) : Option String :=
  match a with
  | none => b
  | some s => if s = "" then b else some s

/-- Python `v or d` where `v` is an optional integer (0 is falsy). -/
def pyNatOr (v : Option Nat) (d : Nat) : Nat :=
  match v with
  | none => d
  | some n => if n = 0 then d else n

/-! ## Data model: FreeTube records

`now_ms()` and `uuid4()` are injected as functions of a global step counter:
each call reads the function at the current counter value and advances the
counter by one, mirroring the sequential call order of the Python code. -/

/-- Injected generators: `clock k` is the value of `now_ms()` at the `k`-th
generator call, `uid k` the value of `str(uuid4())` at the `k`-th call. -/
structure Env where
  clock : Nat → Nat
  uid : Nat → String

/-- A raw yt-dlp entry dictionary, restricted to the keys the program reads.
`id` is doubly optional: the outer level is key presence (for the Python test
`"id" in meta`), the inner level is a null value. The other string keys are
only read through `.get`, which conflates a missing key and a null value.
Numeric fields hold naturals, as yt-dlp reports them. -/
structure RawEntry where
  id : Option (Option String)
  title : Option String
  channel : Option String
  uploader : Option String
  channel_id : Option String
  uploader_id : Option String
  duration : Option Nat
  timestamp : Option Nat
deriving DecidableEq

/-- A `RawEntry` with every key absent. -/
def RawEntry.empty : RawEntry := RawEntry.mk none none none none none none none none

/-- The dictionary literal with a single key: the input video id
(the fallback value of `YTDLPClient.extract_video_min`, source lines 219/222). -/
def RawEntry.idOnly (vid : String) : RawEntry :=
  RawEntry.mk (some (some vid)) none none none none none none none

/-- The `FreeTubeVideo` dataclass (source lines 114-124), field order as
declared. -/
structure FreeTubeVideo where
  videoId : String
  title : String
  author : String
  authorId : String
  lengthSeconds : Nat
  published : Nat
  timeAdded : Nat
  playlistItemId : String
  type : String
deriving DecidableEq

/-- Python `FreeTubeVideo.from_ytdlp_entry` (source lines 126-137). `t` is the
generator counter on entry; the constructor consumes `now_ms()` at tick `t`
and `uuid4()` at tick `t + 1`. -/
def from_ytdlp_entry (env : Env) (t : Nat) (e : RawEntry) : FreeTubeVideo :=
  FreeTubeVideo.mk
    (clean_textS (pyOr e.id.join "N/A"))
    (clean_textS (pyOr e.title "N/A"))
    (clean_textS (pyOr (pyOrO e.channel e.uploader) "N/A"))
    (clean_textS (pyOr (pyOrO e.channel_id e.uploader_id) "N/A"))
    (pyIntOr0 (to_int_str (natToChars (pyNatOr e.duration 0))))
    (pyIntOr0 (to_int_str (natToChars (pyNatOr e.timestamp 0))))
    (env.clock t)
    (env.uid (t + 1))
    "video"

/-- Python `FreeTubeVideo.placeholder` (source lines 139-141): only `videoId` comes
from the input; all other content fields keep the dataclass defaults. -/
def placeholder (env : Env) (t : Nat) (vid : String) : FreeTubeVideo :=
  FreeTubeVideo.mk vid "N/A" "N/A" "N/A" 0 0 (env.clock t) (env.uid (t + 1)) "video"

/-- The `FreeTubePlaylist` dataclass (source lines 144-152), with the Python
field `protected` renamed to `protectedFlag` (`protected` is a Lean keyword)
and `_id` kept. -/
structure FreeTubePlaylist where
  playlistName : String
  protectedFlag : Bool
  description : String
  videos : List FreeTubeVideo
  _id : String
  createdAt : Nat
  lastUpdatedAt : Nat
deriving DecidableEq

/-- Python `FreeTubePlaylist.new` (source lines 154-165): `ts = now_ms()` at tick
`t`, then `uuid4()` at tick `t + 1`; returns the playlist and the advanced
counter. -/
def FreeTubePlaylist.new (env : Env) (name description : String) (t : Nat) :
    FreeTubePlaylist × Nat :=
  (FreeTubePlaylist.mk (pyOrS name "Imported Playlist") false (pyOrS description "")
    [] ("ft-playlist--" ++ env.uid (t + 1)) (env.clock t) (env.clock t), t + 2)

/-- Python `FreeTubePlaylist.add_video` (source lines 167-169): append the video and
refresh `lastUpdatedAt` with `now_ms()` at the current tick. -/
def add_video (env : Env) (st : FreeTubePlaylist × Nat) (v : FreeTubeVideo) :
    FreeTubePlaylist × Nat :=
  (FreeTubePlaylist.mk st.1.playlistName st.1.protectedFlag st.1.description
    (st.1.videos ++ [v]) st.1._id st.1.createdAt (env.clock st.2), st.2 + 1)

/-- Python `YTDLPClient.extract_video_min` (source lines 213-222). The collaborator
`fetch` returns `none` when `extract_info` raises or returns falsy data; in
both cases the method degrades to the id-only dictionary. -/
def extract_video_min (fetch : String → Option RawEntry) (vid : String) : RawEntry :=
  match fetch vid with
  | none => RawEntry.idOnly vid
  | some e => e

/-- Loop body of `build_freetube_from_ids` (source lines 448-455): fetch the
metadata; if the id key is present and the title is non-null, map a full
record, else fall back to a placeholder; then append. Mapping consumes ticks
`t`, `t+1` and the append consumes tick `t+2`. -/
def buildIdsStep (env : Env) (fetch : String → Option RawEntry)
    (st : FreeTubePlaylist × Nat) (vid : String) : FreeTubePlaylist × Nat :=
  let meta := extract_video_min fetch vid
  if meta.id.isSome ∧ meta.title.isSome then
    add_video env (st.1, st.2 + 2) (from_ytdlp_entry env st.2 meta)
  else
    add_video env (st.1, st.2 + 2) (placeholder env st.2 vid)

/-- Python `build_freetube_from_ids` (source lines 445-456). -/
def build_freetube_from_ids (env : Env) (fetch : String → Option RawEntry)
    (ids : List String) (name description : String) (t : Nat) :
    FreeTubePlaylist × Nat :=
  ids.foldl (buildIdsStep env fetch)
    (FreeTubePlaylist.new env
      (pyOrS name ("Imported IDs (" ++ String.mk (natToChars ids.length) ++ " videos)"))
      description t)

/-- A raw playlist response: the keys `build_freetube_from_entries` reads. -/
structure RawPlaylistInfo where
  entries : Option (List RawEntry)
  title : Option String

/-- The cleaned id used for the skip test in `build_freetube_from_entries`
(source line 439): `clean_text(e.get("id") or "")`. -/
def entryCleanId (e : RawEntry) : String := clean_textS (pyOr e.id.join "")

/-- Loop body of `build_freetube_from_entries` (source lines 438-442): skip
the entry when its cleaned id is empty, else map and append. -/
def buildEntriesStep (env : Env) (st : FreeTubePlaylist × Nat) (e : RawEntry) :
    FreeTubePlaylist × Nat :=
  if entryCleanId e = "" then st
  else add_video env (st.1, st.2 + 2) (from_ytdlp_entry env st.2 e)

/-- Python `build_freetube_from_entries` (source lines 434-443). -/
def build_freetube_from_entries (env : Env) (info : RawPlaylistInfo)
    (name : Option String) (description : String) (t : Nat) :
    FreeTubePlaylist × Nat :=
  (info.entries.getD []).foldl (buildEntriesStep env)
    (FreeTubePlaylist.new env
      (pyOr name (pyOrS (clean_textS (pyOr info.title "")) "Imported Playlist"))
      description t)

/-! ## Characterization of the builder loops -/

/-- The record appended for one id of an id-list build, at generator tick `t`
(the branch of source lines 449-453). -/
def idRecord (env : Env) (fetch : String → Option RawEntry) (t : Nat) (vid : String) :
    FreeTubeVideo :=
  let meta := extract_video_min fetch vid
  if meta.id.isSome ∧ meta.title.isSome then from_ytdlp_entry env t meta
  else placeholder env t vid

/-- The records appended by `build_freetube_from_ids` for a list of ids,
starting at generator tick `t` (three ticks per id). -/
def idRecords (env : Env) (fetch : String → Option RawEntry) :
    List String → Nat → List FreeTubeVideo
  | [], _ => []
  | vid :: rest, t => idRecord env fetch t vid :: idRecords env fetch rest (t + 3)

/-- The single-video fetch failed outright, or returned no usable record
(no id key or a null title). -/
def fetchFails (fetch : String → Option RawEntry) (vid : String) : Bool :=
  match fetch vid with
  | none => true
  | some e => e.id.isNone || e.title.isNone

theorem add_video_videos (env : Env) (st : FreeTubePlaylist × Nat)
    (v : FreeTubeVideo) : (add_video env st v).1.videos = st.1.videos ++ [v] := rfl

theorem foldl_buildIdsStep (env : Env) (fetch : String → Option RawEntry) :
    ∀ (ids : List String) (st : FreeTubePlaylist × Nat),
      (ids.foldl (buildIdsStep env fetch) st).1.videos =
        st.1.videos ++ idRecords env fetch ids st.2 := by
  intro ids
  induction ids with
  | nil => intro st; simp [idRecords]
  | cons vid rest ih =>
    intro st
    show (rest.foldl (buildIdsStep env fetch) (buildIdsStep env fetch st vid)).1.videos = _
    rw [ih]
    have hv : (buildIdsStep env fetch st vid).1.videos =
        st.1.videos ++ [idRecord env fetch st.2 vid] := by
      unfold buildIdsStep idRecord
      by_cases h : (extract_video_min fetch vid).id.isSome ∧
          (extract_video_min fetch vid).title.isSome <;> simp [h, add_video]
    have ht : (buildIdsStep env fetch st vid).2 = st.2 + 3 := by
      unfold buildIdsStep
      by_cases h : (extract_video_min fetch vid).id.isSome ∧
          (extract_video_min fetch vid).title.isSome <;> simp [h, add_video]
    rw [hv, ht, List.append_assoc]
    rfl

theorem idRecords_length (env : Env) (fetch : String → Option RawEntry) :
    ∀ (ids : List String) (t : Nat),
      (idRecords env fetch ids t).length = ids.length := by
  intro ids
  induction ids with
  | nil => intro t; rfl
  | cons vid rest ih => intro t; simp [idRecords, ih]

theorem idRecords_get (env : Env) (fetch : String → Option RawEntry) :
    ∀ (ids : List String) (t k : Nat) (vid : String), ids[k]? = some vid →
      (idRecords env fetch ids t)[k]? = some (idRecord env fetch (t + 3 * k) vid) := by
  intro ids
  induction ids with
  | nil => intro t k vid h; simp at h
  | cons v rest ih =>
    intro t k vid h
    cases k with
    | zero =>
      simp at h
      simp [idRecords, h]
    | succ k =>
      simp only [List.getElem?_cons_succ] at h
      have := ih (t + 3) k vid h
      simp only [idRecords, List.getElem?_cons_succ]
      rw [this]
      congr 2
      omega

theorem idRecord_of_fetchFails (env : Env) (fetch : String → Option RawEntry)
    (t : Nat) (vid : String) (h : fetchFails fetch vid = true) :
    idRecord env fetch t vid = placeholder env t vid := by
  unfold idRecord extract_video_min
  unfold fetchFails at h
  cases hf : fetch vid with
  | none => simp [hf, RawEntry.idOnly]
  | some e =>
    rw [hf] at h
    simp only at h
    rcases Bool.or_eq_true_iff.mp h with h1 | h1
    · simp [hf, Option.isNone_iff_eq_none.mp h1]
    · simp [hf, Option.isNone_iff_eq_none.mp h1]

/-- C5: an id-list build never aborts on a failed single-video fetch: it
appends exactly one record per input id, in input order; the record at
position `k` is the one mapped at that position's generator ticks, and when
the fetch for that id fails (or yields no usable title) the record is the
placeholder carrying exactly the input id with default values elsewhere. -/
theorem C5_build_from_ids_placeholders (env : Env)
    (fetch : String → Option RawEntry) (ids : List String)
    (name description : String) (t : Nat) :
    ((build_freetube_from_ids env fetch ids name description t).1.videos.length
        = ids.length) ∧
    (∀ k vid, ids[k]? = some vid →
      (build_freetube_from_ids env fetch ids name description t).1.videos[k]? =
        some (idRecord env fetch (t + 2 + 3 * k) vid)) ∧
    (∀ k vid, ids[k]? = some vid → fetchFails fetch vid = true →
      (build_freetube_from_ids env fetch ids name description t).1.videos[k]? =
        some (placeholder env (t + 2 + 3 * k) vid)) := by
  have hbase : (build_freetube_from_ids env fetch ids name description t).1.videos =
      idRecords env fetch ids (t + 2) := by
    unfold build_freetube_from_ids
    rw [foldl_buildIdsStep]
    simp [FreeTubePlaylist.new]
  refine ⟨?_, ?_, ?_⟩
  · rw [hbase, idRecords_length]
  · intro k vid h
    rw [hbase]
    exact idRecords_get env fetch ids (t + 2) k vid h
  · intro k vid h hf
    rw [hbase, idRecords_get env fetch ids (t + 2) k vid h,
      idRecord_of_fetchFails env fetch _ vid hf]

/-- Witness for C5: a fetch that always fails still yields one placeholder
record per id, in order. -/
theorem C5_build_from_ids_placeholders_witness :
    ((build_freetube_from_ids (Env.mk (fun n => n) (fun _ => "u"))
        (fun _ => none) ["abcdefghijk"] "" "" 0).1.videos.length = 1) ∧
    ((build_freetube_from_ids (Env.mk (fun n => n) (fun _ => "u"))
        (fun _ => none) ["abcdefghijk"] "" "" 0).1.videos[0]? =
      some (placeholder (Env.mk (fun n => n) (fun _ => "u")) 2 "abcdefghijk")) :=
  ⟨(C5_build_from_ids_placeholders (Env.mk (fun n => n) (fun _ => "u"))
      (fun _ => none) ["abcdefghijk"] "" "" 0).1,
   (C5_build_from_ids_placeholders (Env.mk (fun n => n) (fun _ => "u"))
      (fun _ => none) ["abcdefghijk"] "" "" 0).2.2 0 "abcdefghijk" rfl rfl⟩

/-- The records appended by `build_freetube_from_entries`, starting at
generator tick `t`: skipped entries consume no ticks, mapped entries consume
three. -/
def entryRecords (env : Env) : List RawEntry → Nat → List FreeTubeVideo
  | [], _ => []
  | e :: rest, t =>
    if entryCleanId e = "" then entryRecords env rest t
    else from_ytdlp_entry env t e :: entryRecords env rest (t + 3)

theorem foldl_buildEntriesStep (env : Env) :
    ∀ (entries : List RawEntry) (st : FreeTubePlaylist × Nat),
      (entries.foldl (buildEntriesStep env) st).1.videos =
        st.1.videos ++ entryRecords env entries st.2 := by
  intro entries
  induction entries with
  | nil => intro st; simp [entryRecords]
  | cons e rest ih =>
    intro st
    show (rest.foldl (buildEntriesStep env) (buildEntriesStep env st e)).1.videos = _
    rw [ih]
    by_cases h : entryCleanId e = ""
    · rw [show entryRecords env (e :: rest) st.2 = entryRecords env rest st.2 from
        by simp [entryRecords, h]]
      rw [show buildEntriesStep env st e = st from by simp [buildEntriesStep, h]]
    · rw [show entryRecords env (e :: rest) st.2 =
          from_ytdlp_entry env st.2 e :: entryRecords env rest (st.2 + 3) from
        by simp [entryRecords, h]]
      rw [show buildEntriesStep env st e =
          add_video env (st.1, st.2 + 2) (from_ytdlp_entry env st.2 e) from
        by simp [buildEntriesStep, h]]
      simp [add_video, List.append_assoc]

theorem entryRecords_length (env : Env) :
    ∀ (entries : List RawEntry) (t : Nat),
      (entryRecords env entries t).length =
        (entries.filter (fun e => entryCleanId e != "")).length := by
  intro entries
  induction entries with
  | nil => intro t; rfl
  | cons e rest ih =>
    intro t
    by_cases h : entryCleanId e = ""
    · rw [List.filter_cons_of_neg (by simp [h])]
      simp [entryRecords, h, ih]
    · rw [List.filter_cons_of_pos (by simp [h])]
      simp [entryRecords, h, ih]

theorem entryRecords_get (env : Env) :
    ∀ (entries : List RawEntry) (t k : Nat) (e : RawEntry),
      (entries.filter (fun e => entryCleanId e != ""))[k]? = some e →
      ∃ tk, (entryRecords env entries t)[k]? = some (from_ytdlp_entry env tk e) := by
  intro entries
  induction entries with
  | nil => intro t k e h; simp at h
  | cons e0 rest ih =>
    intro t k e h
    by_cases h0 : entryCleanId e0 = ""
    · rw [List.filter_cons_of_neg (by simp [h0])] at h
      rw [show entryRecords env (e0 :: rest) t = entryRecords env rest t from
        by simp [entryRecords, h0]]
      exact ih t k e h
    · rw [List.filter_cons_of_pos (by simp [h0])] at h
      rw [show entryRecords env (e0 :: rest) t =
          from_ytdlp_entry env t e0 :: entryRecords env rest (t + 3) from
        by simp [entryRecords, h0]]
      cases k with
      | zero =>
        rw [List.getElem?_cons_zero] at h
        simp only [Option.some.injEq] at h
        subst h
        exact ⟨t, by rw [List.getElem?_cons_zero]⟩
      | succ k =>
        rw [List.getElem?_cons_succ] at h
        obtain ⟨tk, htk⟩ := ih (t + 3) k e h
        refine ⟨tk, ?_⟩
        rw [List.getElem?_cons_succ]
        exact htk

/-- C6: building a playlist from raw entries appends one mapped record per
entry whose id is non-empty after cleaning, in entry order, skipping the
others: the video list has exactly the length of the filtered entry list, and
the `k`-th video is the mapped image of the `k`-th kept entry. -/
theorem C6_build_from_entries_skips_empty (env : Env) (info : RawPlaylistInfo)
    (name : Option String) (description : String) (t : Nat) :
    ((build_freetube_from_entries env info name description t).1.videos.length =
      ((info.entries.getD []).filter (fun e => entryCleanId e != "")).length) ∧
    (∀ (k : Nat) (e : RawEntry),
      ((info.entries.getD []).filter (fun e => entryCleanId e != ""))[k]? = some e →
      ∃ tk, (build_freetube_from_entries env info name description t).1.videos[k]? =
        some (from_ytdlp_entry env tk e)) := by
  have hbase : (build_freetube_from_entries env info name description t).1.videos =
      entryRecords env (info.entries.getD []) (t + 2) := by
    unfold build_freetube_from_entries
    rw [foldl_buildEntriesStep]
    simp [FreeTubePlaylist.new]
  constructor
  · rw [hbase, entryRecords_length]
  · intro k e h
    rw [hbase]
    exact entryRecords_get env (info.entries.getD []) (t + 2) k e h

/-- Concrete entries for the C6 witness: entries 1 and 3 carry ids, entry 2's
id cleans to the empty string. -/
def c6Entry1 : RawEntry :=
  RawEntry.mk (some (some "aaaaaaaaaaa")) (some "t1") none none none none none none

/-- Second witness entry: its id is a zero-width space, which cleans to empty. -/
def c6Entry2 : RawEntry :=
  RawEntry.mk (some (some "​")) (some "t2") none none none none none none

/-- Third witness entry. -/
def c6Entry3 : RawEntry :=
  RawEntry.mk (some (some "bbbbbbbbbbb")) (some "t3") none none none none none none

/-- Environment with the identity clock and a constant uuid, for witnesses. -/
def envW : Env := Env.mk (fun n => n) (fun _ => "u")

/-- The playlist info used by the C6 witness. -/
def c6Info : RawPlaylistInfo :=
  RawPlaylistInfo.mk (some [c6Entry1, c6Entry2, c6Entry3]) (some "pl")

/-- Witness for C6: three entries whose middle id cleans to empty yield
exactly two records, mapped from entries 1 and 3 in that order. -/
theorem C6_build_from_entries_skips_empty_witness :
    ((build_freetube_from_entries envW c6Info none "" 0).1.videos.length = 2) ∧
    (∃ tk, (build_freetube_from_entries envW c6Info none "" 0).1.videos[0]? =
      some (from_ytdlp_entry envW tk c6Entry1)) ∧
    (∃ tk, (build_freetube_from_entries envW c6Info none "" 0).1.videos[1]? =
      some (from_ytdlp_entry envW tk c6Entry3)) :=
  ⟨((C6_build_from_entries_skips_empty envW c6Info none "" 0).1).trans (by decide),
   (C6_build_from_entries_skips_empty envW c6Info none "" 0).2 0 c6Entry1 (by decide),
   (C6_build_from_entries_skips_empty envW c6Info none "" 0).2 1 c6Entry3 (by decide)⟩

/-! ## C9: playlist timestamp invariant -/

/-- A sequence of `add_video` calls, threading the generator counter. -/
def addAll (env : Env) (st : FreeTubePlaylist × Nat) (vs : List FreeTubeVideo) :
    FreeTubePlaylist × Nat :=
  vs.foldl (add_video env) st

theorem addAll_inv (env : Env)
    (hmono : ∀ i j, i ≤ j → env.clock i ≤ env.clock j) :
    ∀ (vs : List FreeTubeVideo) (st : FreeTubePlaylist × Nat),
      st.1.createdAt ≤ st.1.lastUpdatedAt → st.1.createdAt ≤ env.clock st.2 →
      (addAll env st vs).1.createdAt = st.1.createdAt ∧
      (addAll env st vs).1.createdAt ≤ (addAll env st vs).1.lastUpdatedAt := by
  intro vs
  induction vs with
  | nil => intro st h1 h2; exact ⟨rfl, h1⟩
  | cons v rest ih =>
    intro st h1 h2
    have hstep := ih (add_video env st v) (by simpa [add_video] using h2)
      (by
        show (add_video env st v).1.createdAt ≤ env.clock (add_video env st v).2
        have : (add_video env st v).2 = st.2 + 1 := rfl
        rw [this]
        exact le_trans h2 (hmono st.2 (st.2 + 1) (Nat.le_succ _)))
    exact ⟨hstep.1, hstep.2⟩

/-- C9: for a playlist created by `FreeTubePlaylist.new` followed by any
sequence of `add_video` calls, under a non-decreasing clock, `createdAt`
keeps its creation value and `lastUpdatedAt ≥ createdAt` holds at every
state (the statement quantifies over all call sequences, hence over every
intermediate state). -/
theorem C9_playlist_timestamps (env : Env)
    (hmono : ∀ i j, i ≤ j → env.clock i ≤ env.clock j)
    (name description : String) (t : Nat) (vs : List FreeTubeVideo) :
    (addAll env (FreeTubePlaylist.new env name description t) vs).1.createdAt =
      env.clock t ∧
    env.clock t ≤
      (addAll env (FreeTubePlaylist.new env name description t) vs).1.lastUpdatedAt := by
  have h := addAll_inv env hmono vs (FreeTubePlaylist.new env name description t)
    (le_refl _) (hmono t (t + 2) (by omega))
  have hc : (FreeTubePlaylist.new env name description t).1.createdAt = env.clock t := rfl
  exact ⟨hc ▸ h.1, by rw [← hc, ← h.1]; exact h.2⟩

/-- Witness for C9 with the identity clock and two appended videos. -/
theorem C9_playlist_timestamps_witness :
    (addAll envW (FreeTubePlaylist.new envW "n" "" 0)
      [placeholder envW 2 "v1234567890", placeholder envW 5 "w1234567890"]).1.createdAt =
      envW.clock 0 ∧
    envW.clock 0 ≤
      (addAll envW (FreeTubePlaylist.new envW "n" "" 0)
        [placeholder envW 2 "v1234567890", placeholder envW 5 "w1234567890"]).1.lastUpdatedAt :=
  C9_playlist_timestamps envW (fun _ _ h => h) "n" "" 0
    [placeholder envW 2 "v1234567890", placeholder envW 5 "w1234567890"]

/-! ## Piped exporters -/

/-- Python `format(k, "03")`: decimal digits zero-padded to width at least 3. -/
def pad3 (n : Nat) : List Char :=
  List.replicate (3 - (natToChars n).length) '0' ++ natToChars n

/-- Python `range(0, stop, step)` for `step > 0`: the multiples of `step`
below `stop` — `⌈stop/step⌉` many elements. -/
def pyRangeStep (stop step : Nat) : List Nat :=
  (List.range ((stop + step - 1) / step)).map (fun k => k * step)

/-- The watch URL written by the Piped JSON exporters (source lines 301
and 325): note the host is `youtube.com`, without `www.`. -/
def piped_watch_url (v : String) : String := "https://youtube.com/watch?v=" ++ v

/-- One object of the `playlists` array of a Piped payload (source lines
300-302 or 324-325). -/
structure PipedPlaylist where
  name : String
  typeName : String
  visibility : String
  videos : List String
deriving DecidableEq

/-- A Piped payload: fixed header plus playlists (source lines 296-304). -/
structure PipedPayload where
  formatName : String
  version : Nat
  playlists : List PipedPlaylist
deriving DecidableEq

/-- The playlist object built for `(name, vids)`. -/
def pipedPlaylistObj (name : String) (vids : List String) : PipedPlaylist :=
  PipedPlaylist.mk name "playlist" "private" (vids.map piped_watch_url)

/-- Python `export_piped_json` (source lines 294-312), modelled as the payload it
serializes. -/
def export_piped_json (playlists : List (String × List String)) : PipedPayload :=
  PipedPayload.mk "Piped" 1 (playlists.map (fun p => pipedPlaylistObj p.1 p.2))

/-- The chunk file name (source line 326): base stem, underscore, sanitized
playlist name, underscore, the 1-based chunk index zero-padded to at least
three digits, and the `.json` suffix; `i` is the start offset of the chunk. -/
def chunkFileName (base name : String) (i split : Nat) : String :=
  base ++ "_" ++ sanitize_nameS name ++ "_" ++ String.mk (pad3 (i / split + 1)) ++ ".json"

/-- Python `export_piped_json_split` (source lines 314-337), modelled as the list of
`(file name, payload)` writes it performs, in order: for each playlist in
order, for each chunk start `i` in `range(0, len(vids), split)`, one file
holding the slice `vids[i:i+split]` wrapped in a single-playlist payload.
(The stem/`outdir` computation from `base_out` and the directory creation are
path plumbing and are elided; `base` is the computed stem.) -/
def export_piped_json_split (base : String) (split : Nat)
    (playlists : List (String × List String)) : List (String × PipedPayload) :=
  playlists.flatMap (fun p =>
    (pyRangeStep p.2.length split).map (fun i =>
      (chunkFileName base p.1 i split,
        PipedPayload.mk "Piped" 1 [pipedPlaylistObj p.1 ((p.2.drop i).take split)])))

/-- Python `export_urls` (source lines 349-355), modelled as the text written: one
canonical `www.youtube.com` watch URL per line. -/
def export_urls (video_ids : List String) : String :=
  video_ids.foldl (fun acc vid => acc ++ "https://www.youtube.com/watch?v=" ++ vid ++ "\n") ""

/-- Python `export_ids` (source lines 357-363), modelled as the text written. -/
def export_ids (video_ids : List String) : String :=
  video_ids.foldl (fun acc vid => acc ++ vid ++ "\n") ""

/-! ## CSV exporter -/

/-- One field under `csv.writer`'s default `QUOTE_MINIMAL` with delimiter
`,`, quote char `"` and line terminator CR-LF: quoted (with the quote char
doubled) exactly when the field contains a delimiter, a quote char, or a
line-terminator character. -/
def csvField (s : String) : String :=
  if s.data.any (fun c => c = ',' ∨ c = '"' ∨ c = '\r' ∨ c = '\n') then
    "\"" ++ String.mk (s.data.flatMap (fun c => if c = '"' then ['"', '"'] else [c])) ++ "\""
  else s

/-- Join strings with the `,` delimiter. -/
def commaJoin : List String → String
  | [] => ""
  | [x] => x
  | x :: xs => x ++ "," ++ commaJoin xs

/-- One `writerow` of `export_piped_csv`: comma-joined minimally quoted
fields plus CR-LF. -/
def csvRow (fields : List String) : String :=
  commaJoin (fields.map csvField) ++ "\r\n"

/-- Python `export_piped_csv` (source lines 339-347), modelled as the text written:
a header row, then one row per video id with an empty second column. -/
def export_piped_csv (video_ids : List String) : String :=
  video_ids.foldl (fun acc vid => acc ++ csvRow [vid, ""]) (csvRow ["videoId", "addedAt"])

/-! ## CLI input checks (C8) -/

/-- The early input checks of `main` (source lines 507-543), as a function
from the export mode and input presence to the exit code of an early exit
(`none` means execution continues past these checks). The subscription
branch returns before the checks; then the help branch fires for any
non-subscription mode with no inputs and exits 0; the subsequent usage-error
branch (exit 2) repeats the same condition and is therefore unreachable. -/
def mainEarlyExit (exportMode : String) (haveUrls haveIds : Bool) : Option Nat :=
  if exportMode = "newpipe-subs" then none
  else if !haveUrls ∧ !haveIds ∧ exportMode ≠ "newpipe-subs" then some 0
  else if !haveUrls ∧ !haveIds then some 2
  else none

/-! ## Subscriptions fetch (C10) -/

/-- A raw `/feed/channels` entry, restricted to the keys read by
`fetch_subscriptions_via_ytdlp`. -/
structure SubEntry where
  channel_id : Option String
  id : Option String
  title : Option String
  channel : Option String
deriving DecidableEq

/-- The loop of `fetch_subscriptions_via_ytdlp` (source lines 398-406): a
falsy entry is skipped; `ch_id = e.get("channel_id") or e.get("id")`;
`name = e.get("title") or e.get("channel") or "Unknown"`; entries with falsy
`ch_id` are skipped; kept entries append `(channel URL, name)`. -/
def fetch_subscriptions (feed : List (Option SubEntry)) : List (String × String) :=
  feed.foldl (fun acc oe =>
    match oe with
    | none => acc
    | some e =>
      let chId := pyOrO e.channel_id e.id
      let name := pyOr (pyOrO e.title e.channel) "Unknown"
      match chId with
      | none => acc
      | some c =>
        if c = "" then acc
        else acc ++ [("https://www.youtube.com/channel/" ++ c, name)]) []

/-- Per-entry specification of the subscription loop, in the spec's terms:
drop a falsy entry or one whose channel id resolves to nothing; otherwise
keep the channel URL and the display name (defaulting to "Unknown"). -/
def subStep (oe : Option SubEntry) : Option (String × String) :=
  match oe with
  | none => none
  | some e =>
    match pyOrO e.channel_id e.id with
    | none => none
    | some c =>
      if c = "" then none
      else some ("https://www.youtube.com/channel/" ++ c,
        pyOr (pyOrO e.title e.channel) "Unknown")

/-! ## C2: chunked Piped export -/

theorem pyRangeStep_length (stop step : Nat) :
    (pyRangeStep stop step).length = (stop + step - 1) / step := by
  simp [pyRangeStep]

theorem pyRangeStep_getElem (stop step k : Nat)
    (hk : k < (pyRangeStep stop step).length) :
    (pyRangeStep stop step).get ⟨k, hk⟩ = k * step := by
  simp [pyRangeStep]

/-- C2: for every playlist and chunk size `N > 0`, the chunked export writes
`⌈n/N⌉` files; the `k`-th file (0-based) is named
named base, underscore, sanitized name, underscore, `k+1` zero-padded to at
least three digits, then `.json`, and holds
exactly the slice of the next `N` videos in input order (the last chunk may
be shorter); and the export over several playlists is the concatenation of
the independent per-playlist exports, so chunks of different playlists are
never merged. -/
theorem C2_piped_split_chunks (base : String) (N : Nat) (hN : 0 < N)
    (name : String) (vids : List String) (pls : List (String × List String)) :
    ((export_piped_json_split base N [(name, vids)]).length =
      (vids.length + N - 1) / N) ∧
    (∀ k : Nat, k < (vids.length + N - 1) / N →
      (export_piped_json_split base N [(name, vids)])[k]? =
        some (base ++ "_" ++ sanitize_nameS name ++ "_" ++ String.mk (pad3 (k + 1)) ++ ".json",
         PipedPayload.mk "Piped" 1 [pipedPlaylistObj name ((vids.drop (k * N)).take N)])) ∧
    (∀ k : Nat, ((vids.drop (k * N)).take N).length = min N (vids.length - k * N)) ∧
    (export_piped_json_split base N pls =
      pls.flatMap (fun p => export_piped_json_split base N [p])) := by
  have hsingle : export_piped_json_split base N [(name, vids)] =
      (pyRangeStep vids.length N).map (fun i =>
        (chunkFileName base name i N,
          PipedPayload.mk "Piped" 1 [pipedPlaylistObj name ((vids.drop i).take N)])) := by
    simp [export_piped_json_split]
  refine ⟨?_, ?_, ?_, ?_⟩
  · rw [hsingle]
    simp [pyRangeStep_length]
  · intro k hk
    rw [hsingle]
    have hk2 : k < (pyRangeStep vids.length N).length := by
      rw [pyRangeStep_length]
      exact hk
    rw [List.getElem?_map]
    have hval : (pyRangeStep vids.length N)[k]? = some (k * N) := by
      rw [List.getElem?_eq_getElem hk2]
      have := pyRangeStep_getElem vids.length N k hk2
      rw [List.get_eq_getElem] at this
      rw [this]
    rw [hval]
    show some (chunkFileName base name (k * N) N, _) = _
    unfold chunkFileName
    rw [Nat.mul_div_cancel k hN]
  · intro k
    simp [List.length_take, List.length_drop]
  · induction pls with
    | nil => rfl
    | cons p ps ih =>
      show export_piped_json_split base N (p :: ps) = _
      simp only [export_piped_json_split, List.flatMap_cons] at *
      rw [← ih]
      simp [export_piped_json_split]

/-- The seven video ids of the C2 witness. -/
def c2Vids : List String :=
  ["v0000000001", "v0000000002", "v0000000003", "v0000000004",
   "v0000000005", "v0000000006", "v0000000007"]

/-- Witness for C2: 7 videos with split size 3 yield 3 files with suffixes
`_001`, `_002`, `_003` and chunk sizes 3, 3, 1, in playlist order. -/
theorem C2_piped_split_chunks_witness :
    ((export_piped_json_split "piped" 3 [("My List", c2Vids)]).length = 3) ∧
    ((export_piped_json_split "piped" 3 [("My List", c2Vids)]).map (fun fp => fp.1) =
      ["piped_My_List_001.json", "piped_My_List_002.json", "piped_My_List_003.json"]) ∧
    ((export_piped_json_split "piped" 3 [("My List", c2Vids)]).map
      (fun fp => fp.2.playlists.map (fun po => po.videos.length)) = [[3], [3], [1]]) :=
  ⟨((C2_piped_split_chunks "piped" 3 (by decide) "My List" c2Vids []).1).trans (by decide),
   by decide, by decide⟩

/-! ## C4: watch URL forms -/

/-- C4 (counterexample): the plain Piped JSON exporter emits
`https://youtube.com/watch?v=abc` for id `abc`, which is not the canonical
`https://www.youtube.com/watch?v=abc` form the claim requires. -/
theorem C4_piped_url_not_www :
    ((export_piped_json [("n", ["abc"])]).playlists.map (fun po => po.videos) =
      [["https://youtube.com/watch?v=abc"]]) ∧
    "https://youtube.com/watch?v=abc" ≠ "https://www.youtube.com/watch?v=abc" :=
  ⟨rfl, by decide⟩

theorem export_urls_foldl_aux :
    ∀ (ids : List String) (acc : String),
      (ids.foldl (fun acc vid =>
        acc ++ "https://www.youtube.com/watch?v=" ++ vid ++ "\n") acc).data =
        acc.data ++ ids.flatMap
          (fun v => ("https://www.youtube.com/watch?v=" ++ v ++ "\n").data) := by
  intro ids
  induction ids with
  | nil => intro acc; simp
  | cons v rest ih =>
    intro acc
    rw [List.foldl_cons, ih]
    simp [String.data_append, List.append_assoc]

/-- C4 (amended): both Piped JSON exporters (plain and chunked) emit the
`https://youtube.com/watch?v=` prefix (no `www.`) before each video id, while
the URL-list exporter emits the canonical `https://www.youtube.com/watch?v=`
prefix, one URL per line. -/
theorem C4_watch_url_forms (pls : List (String × List String)) (ids : List String)
    (base : String) (N : Nat) :
    (∀ po ∈ (export_piped_json pls).playlists, ∃ p, p ∈ pls ∧
      po.videos = p.2.map (fun v => "https://youtube.com/watch?v=" ++ v)) ∧
    (∀ fp ∈ export_piped_json_split base N pls, ∃ p i, p ∈ pls ∧
      fp.2.playlists = [pipedPlaylistObj p.1 ((p.2.drop i).take N)] ∧
      (pipedPlaylistObj p.1 ((p.2.drop i).take N)).videos =
        ((p.2.drop i).take N).map (fun v => "https://youtube.com/watch?v=" ++ v)) ∧
    ((export_urls ids).data = ids.flatMap
      (fun v => ("https://www.youtube.com/watch?v=" ++ v ++ "\n").data)) := by
  refine ⟨?_, ?_, ?_⟩
  · intro po hpo
    unfold export_piped_json at hpo
    simp only at hpo
    rcases List.mem_map.mp hpo with ⟨p, hp, hpe⟩
    exact ⟨p, hp, by rw [← hpe]; rfl⟩
  · intro fp hfp
    unfold export_piped_json_split at hfp
    rcases List.mem_flatMap.mp hfp with ⟨p, hp, hfp2⟩
    rcases List.mem_map.mp hfp2 with ⟨i, _, hie⟩
    exact ⟨p, i, hp, by rw [← hie], rfl⟩
  · exact export_urls_foldl_aux ids ""

/-- Witness for C4's amended statement at concrete inputs. -/
theorem C4_watch_url_forms_witness :
    (∃ p, p ∈ [("n", ["abc"])] ∧
      (pipedPlaylistObj "n" ["abc"]).videos =
        p.2.map (fun v => "https://youtube.com/watch?v=" ++ v)) ∧
    ((export_urls ["abc"]).data = ["abc"].flatMap
      (fun v => ("https://www.youtube.com/watch?v=" ++ v ++ "\n").data)) :=
  ⟨(C4_watch_url_forms [("n", ["abc"])] ["abc"] "b" 1).1
      (pipedPlaylistObj "n" ["abc"]) (by decide),
   (C4_watch_url_forms [("n", ["abc"])] ["abc"] "b" 1).2.2⟩

/-! ## C7: CSV export -/

/-- C7 (counterexample): the tabular export of a single plain id contains no
double quote at all — `csv.writer`'s default quoting is minimal, so neither
the header fields nor the data fields are quoted. -/
theorem C7_csv_not_all_quoted :
    (export_piped_csv ["abcdefghijk"] = "videoId,addedAt\r\nabcdefghijk,\r\n") ∧
    '"' ∉ (export_piped_csv ["abcdefghijk"]).data := by
  constructor
  · decide
  · decide

theorem export_csv_foldl_aux :
    ∀ (ids : List String) (acc : String),
      (ids.foldl (fun acc vid => acc ++ csvRow [vid, ""]) acc).data =
        acc.data ++ ids.flatMap (fun v => (csvRow [v, ""]).data) := by
  intro ids
  induction ids with
  | nil => intro acc; simp
  | cons v rest ih =>
    intro acc
    rw [List.foldl_cons, ih]
    simp [String.data_append, List.append_assoc]

/-- C7 (amended): the tabular export writes a header row and then one row per
id in input order, every row CR-LF-terminated with an empty second column;
fields are double-quoted (with inner quotes doubled) exactly when they
contain a comma, a double quote, CR or LF, and left unquoted otherwise. -/
theorem C7_csv_rows (ids : List String) :
    ((export_piped_csv ids).data = (csvRow ["videoId", "addedAt"]).data ++
      ids.flatMap (fun v => (csvRow [v, ""]).data)) ∧
    (csvRow ["videoId", "addedAt"] = "videoId,addedAt\r\n") ∧
    (∀ v, csvRow [v, ""] = csvField v ++ ",\r\n") ∧
    (∀ s : String, (∀ c ∈ s.data, ¬(c = ',' ∨ c = '"' ∨ c = '\r' ∨ c = '\n')) →
      csvField s = s) ∧
    (∀ s : String, (∃ c ∈ s.data, (c = ',' ∨ c = '"' ∨ c = '\r' ∨ c = '\n')) →
      csvField s = "\"" ++
        String.mk (s.data.flatMap (fun c => if c = '"' then ['"', '"'] else [c])) ++ "\"") := by
  refine ⟨export_csv_foldl_aux ids _, by decide, ?_, ?_, ?_⟩
  · intro v
    show commaJoin [csvField v, csvField ""] ++ "\r\n" = _
    have h0 : csvField "" = "" := by decide
    rw [h0]
    show csvField v ++ "," ++ "" ++ "\r\n" = csvField v ++ ",\r\n"
    apply String.ext
    simp [String.data_append]
  · intro s hs
    unfold csvField
    rw [if_neg]
    intro hany
    rcases List.any_eq_true.mp hany with ⟨c, hc, hcp⟩
    exact hs c hc (by simpa using hcp)
  · intro s hs
    unfold csvField
    rw [if_pos]
    rcases hs with ⟨c, hc, hcp⟩
    exact List.any_eq_true.mpr ⟨c, hc, by simpa using hcp⟩

/-- Witness for C7's amended statement at a concrete input. -/
theorem C7_csv_rows_witness :
    ((export_piped_csv ["abcdefghijk"]).data = (csvRow ["videoId", "addedAt"]).data ++
      ["abcdefghijk"].flatMap (fun v => (csvRow [v, ""]).data)) ∧
    csvField "abcdefghijk" = "abcdefghijk" :=
  ⟨(C7_csv_rows ["abcdefghijk"]).1,
   (C7_csv_rows ["abcdefghijk"]).2.2.2.1 "abcdefghijk" (by decide)⟩

/-! ## C8: missing-input behaviour of main -/

/-- C8 (counterexample): with export mode `urls` and neither a playlist URL
nor an ids file, `main` prints help and exits 0, not 2. -/
theorem C8_no_input_exit_is_zero :
    mainEarlyExit "urls" false false = some 0 ∧
    mainEarlyExit "urls" false false ≠ some 2 := by
  constructor
  · rfl
  · decide

/-- C8 (amended): for every non-subscription export mode with no playlist URL
and no ids file, `main` shows the help text and exits with status 0; the
usage-error branch that would exit 2 is unreachable for every input. -/
theorem C8_no_input_help_exit0 (mode : String) (hmode : mode ≠ "newpipe-subs")
    (u i : Bool) :
    mainEarlyExit mode false false = some 0 ∧
    mainEarlyExit mode u i ≠ some 2 := by
  constructor
  · unfold mainEarlyExit
    rw [if_neg hmode, if_pos ⟨rfl, rfl, hmode⟩]
  · unfold mainEarlyExit
    by_cases h1 : mode = "newpipe-subs"
    · simp [h1]
    · rw [if_neg h1]
      by_cases h2 : (!u : Bool) = true ∧ (!i : Bool) = true
      · rw [if_pos ⟨h2.1, h2.2, h1⟩]
        decide
      · rw [if_neg (fun hp => h2 ⟨hp.1, hp.2.1⟩), if_neg (fun hp => h2 hp)]
        decide

/-- Witness for C8's amended statement at a concrete mode. -/
theorem C8_no_input_help_exit0_witness :
    mainEarlyExit "urls" false false = some 0 ∧
    mainEarlyExit "urls" false false ≠ some 2 :=
  C8_no_input_help_exit0 "urls" (by decide) false false

/-! ## C10: subscription fetch filtering -/

theorem fetch_subscriptions_foldl_aux :
    ∀ (feed : List (Option SubEntry)) (acc : List (String × String)),
      feed.foldl (fun acc oe =>
        match oe with
        | none => acc
        | some e =>
          let chId := pyOrO e.channel_id e.id
          let name := pyOr (pyOrO e.title e.channel) "Unknown"
          match chId with
          | none => acc
          | some c =>
            if c = "" then acc
            else acc ++ [("https://www.youtube.com/channel/" ++ c, name)]) acc =
      acc ++ feed.filterMap subStep := by
  intro feed
  induction feed with
  | nil => intro acc; simp
  | cons oe rest ih =>
    intro acc
    rw [List.foldl_cons, ih]
    cases oe with
    | none => simp [subStep]
    | some e =>
      cases hc : pyOrO e.channel_id e.id with
      | none => simp [subStep, hc]
      | some c =>
        by_cases hce : c = ""
        · simp [subStep, hc, hce]
        · simp [subStep, hc, hce]

/-- C10: the subscription fetch keeps exactly the entries accepted by the
per-entry rule `subStep` — in feed order — so it silently drops falsy
entries and entries whose channel id resolves to nothing, never yields more
entries than the feed, gives every kept entry the channel-URL prefix, and
substitutes the name "Unknown" when both the title and the channel name are
missing or empty. -/
theorem C10_subscriptions_filter (feed : List (Option SubEntry)) :
    (fetch_subscriptions feed = feed.filterMap subStep) ∧
    ((fetch_subscriptions feed).length ≤ feed.length) ∧
    (∀ oe ∈ feed, ∀ u n, subStep oe = some (u, n) →
      ∃ c, u = "https://www.youtube.com/channel/" ++ c) ∧
    (∀ e : SubEntry, (e.title = none ∨ e.title = some "") →
      (e.channel = none ∨ e.channel = some "") →
      ∀ u n, subStep (some e) = some (u, n) → n = "Unknown") := by
  have hmain : fetch_subscriptions feed = feed.filterMap subStep := by
    unfold fetch_subscriptions
    have := fetch_subscriptions_foldl_aux feed []
    simpa using this
  refine ⟨hmain, ?_, ?_, ?_⟩
  · rw [hmain]
    exact List.length_filterMap_le _ _
  · intro oe _ u n h
    cases oe with
    | none => simp [subStep] at h
    | some e =>
      simp only [subStep] at h
      cases hc : pyOrO e.channel_id e.id with
      | none => rw [hc] at h; simp at h
      | some c =>
        rw [hc] at h
        by_cases hce : c = ""
        · simp [hce] at h
        · simp only [hce, if_false, Option.some.injEq, Prod.mk.injEq] at h
          exact ⟨c, h.1.symm⟩
  · intro e ht hch u n h
    simp only [subStep] at h
    cases hc : pyOrO e.channel_id e.id with
    | none => rw [hc] at h; simp at h
    | some c =>
      rw [hc] at h
      by_cases hce : c = ""
      · simp [hce] at h
      · simp only [hce, if_false, Option.some.injEq, Prod.mk.injEq] at h
        rw [← h.2]
        have hto : pyOrO e.title e.channel = none ∨ pyOrO e.title e.channel = some "" := by
          rcases ht with ht | ht <;> rcases hch with hch | hch <;>
            simp [pyOrO, ht, hch]
        rcases hto with hto | hto <;> simp [pyOr, hto]

/-- The feed used by the C10 witness: a falsy entry followed by a real one
with no title and no channel name. -/
def c10Feed : List (Option SubEntry) :=
  [none, some (SubEntry.mk (some "UCabc") none none none)]

/-- Witness for C10: the exported list is the in-order filter of the feed
and is strictly shorter than the feed; the kept entry's name defaults to
"Unknown". -/
theorem C10_subscriptions_filter_witness :
    (fetch_subscriptions c10Feed = c10Feed.filterMap subStep) ∧
    ((fetch_subscriptions c10Feed).length < c10Feed.length) ∧
    (fetch_subscriptions c10Feed =
      [("https://www.youtube.com/channel/UCabc", "Unknown")]) :=
  ⟨(C10_subscriptions_filter c10Feed).1, by decide, by decide⟩

/-! ## C1: the FreeTube database appender

`export_freetube_db` (source lines 273-282) opens the database in append
mode, writes `json.dump(pl.to_json_obj(), f, separators=(",", ":"))` — one
minified JSON object with `ensure_ascii=True` escaping — then a newline, then
flushes and fsyncs. The serializer below reproduces that byte stream; a
recursive-descent reader is then proved to recover the playlist from each
written line. -/

/-- Is `c` an ASCII hex digit? -/
def isHex (c : Char) : Bool :=
  decide ((48 ≤ c.toNat ∧ c.toNat ≤ 57) ∨ (97 ≤ c.toNat ∧ c.toNat ≤ 102) ∨
    (65 ≤ c.toNat ∧ c.toNat ≤ 70))

/-- Value of a hex digit. -/
def hexVal (c : Char) : Nat :=
  if 48 ≤ c.toNat ∧ c.toNat ≤ 57 then c.toNat - 48
  else if 97 ≤ c.toNat ∧ c.toNat ≤ 102 then c.toNat - 87
  else if 65 ≤ c.toNat ∧ c.toNat ≤ 70 then c.toNat - 55
  else 0

/-- Lower-case hex digit for `d < 16` (Python formats `\uXXXX` in lower
case). -/
def hexDigitChar (d : Nat) : Char :=
  if d < 10 then Char.ofNat (48 + d) else Char.ofNat (87 + d)

/-- The four hex digits of `n mod 2^16`, as in `format(n, "04x")`. -/
def hex4 (n : Nat) : List Char :=
  [hexDigitChar (n / 4096 % 16), hexDigitChar (n / 256 % 16),
   hexDigitChar (n / 16 % 16), hexDigitChar (n % 16)]

/-- The escape of one character under `json.dump` with `ensure_ascii=True`:
backslash and quote get two-character escapes, printable ASCII passes
through, the five short control escapes apply, every other BMP code point
becomes `\uXXXX`, and astral code points become a surrogate pair. -/
def escapeChar (c : Char) : List Char :=
  if c = '"' then ['\\', '"']
  else if c = '\\' then ['\\', '\\']
  else if 0x20 ≤ c.toNat ∧ c.toNat ≤ 0x7E then [c]
  else if c = '\x08' then ['\\', 'b']
  else if c = '\x09' then ['\\', 't']
  else if c = '\n' then ['\\', 'n']
  else if c = '\x0C' then ['\\', 'f']
  else if c = '\x0D' then ['\\', 'r']
  else if c.toNat < 0x10000 then '\\' :: 'u' :: hex4 c.toNat
  else ('\\' :: 'u' :: hex4 (0xD800 + (c.toNat - 0x10000) / 1024)) ++
       ('\\' :: 'u' :: hex4 (0xDC00 + (c.toNat - 0x10000) % 1024))

/-- A JSON string literal: quote, escaped characters, quote. -/
def serStr (s : String) : List Char :=
  '"' :: (s.data.flatMap escapeChar ++ ['"'])

/-- A JSON boolean literal. -/
def serBool (b : Bool) : List Char :=
  if b then "true".data else "false".data

/-- An object key followed by the `:` separator of
`separators=(",", ":")`. -/
def objKey (s : String) : List Char := serStr s ++ [':']

/-- The minified JSON object for one `FreeTubeVideo`, keys in dataclass
order (`asdict` preserves field order). -/
def serVideo (v : FreeTubeVideo) : List Char :=
  ['\x7b'] ++ objKey "videoId" ++ serStr v.videoId
  ++ [','] ++ objKey "title" ++ serStr v.title
  ++ [','] ++ objKey "author" ++ serStr v.author
  ++ [','] ++ objKey "authorId" ++ serStr v.authorId
  ++ [','] ++ objKey "lengthSeconds" ++ natToChars v.lengthSeconds
  ++ [','] ++ objKey "published" ++ natToChars v.published
  ++ [','] ++ objKey "timeAdded" ++ natToChars v.timeAdded
  ++ [','] ++ objKey "playlistItemId" ++ serStr v.playlistItemId
  ++ [','] ++ objKey "type" ++ serStr v.type
  ++ ['\x7d']

/-- Comma-separated list of serialized chunks. -/
def commaSep : List (List Char) → List Char
  | [] => []
  | [x] => x
  | x :: xs => x ++ ',' :: commaSep xs

/-- The JSON array of the playlist's videos. -/
def serVideos (vs : List FreeTubeVideo) : List Char :=
  '[' :: (commaSep (vs.map serVideo) ++ [']'])

/-- The minified JSON line `json.dump(pl.to_json_obj(), ...)` writes for one
playlist: keys in dataclass order (`playlistName`, `protected`,
`description`, `videos`, `_id`, `createdAt`, `lastUpdatedAt`). -/
def serPlaylist (pl : FreeTubePlaylist) : List Char :=
  ['\x7b'] ++ objKey "playlistName" ++ serStr pl.playlistName
  ++ [','] ++ objKey "protected" ++ serBool pl.protectedFlag
  ++ [','] ++ objKey "description" ++ serStr pl.description
  ++ [','] ++ objKey "videos" ++ serVideos pl.videos
  ++ [','] ++ objKey "_id" ++ serStr pl._id
  ++ [','] ++ objKey "createdAt" ++ natToChars pl.createdAt
  ++ [','] ++ objKey "lastUpdatedAt" ++ natToChars pl.lastUpdatedAt
  ++ ['\x7d']

/-! ### A recursive-descent reader for the written line -/

/-- Prepend a decoded character to a string-parse result. -/
def consFst (c : Char) : Option (List Char × List Char) → Option (List Char × List Char)
  | some (s, r) => some (c :: s, r)
  | none => none

/-- Consume an exact character sequence. -/
def parseExact : List Char → List Char → Option (List Char)
  | [], input => some input
  | _ :: _, [] => none
  | p :: ps, c :: cs => if c = p then parseExact ps cs else none

/-- Decode a JSON string body (after the opening quote) up to the closing
quote: handles the two-character escapes, `\uXXXX`, and surrogate pairs. -/
def parseStrAux : List Char → Option (List Char × List Char)
  | [] => none
  | c :: rest =>
    if c = '"' then some ([], rest)
    else if c = '\\' then
      match rest with
      | [] => none
      | e :: r =>
        if e = '"' then consFst '"' (parseStrAux r)
        else if e = '\\' then consFst '\\' (parseStrAux r)
        else if e = 'b' then consFst '\x08' (parseStrAux r)
        else if e = 'f' then consFst '\x0C' (parseStrAux r)
        else if e = 'n' then consFst '\n' (parseStrAux r)
        else if e = 'r' then consFst '\x0D' (parseStrAux r)
        else if e = 't' then consFst '\x09' (parseStrAux r)
        else if e = 'u' then
          match r with
          | a :: b :: c2 :: d :: r2 =>
            if isHex a ∧ isHex b ∧ isHex c2 ∧ isHex d then
              if 0xD800 ≤ hexVal a * 4096 + hexVal b * 256 + hexVal c2 * 16 + hexVal d ∧
                  hexVal a * 4096 + hexVal b * 256 + hexVal c2 * 16 + hexVal d ≤ 0xDBFF then
                match r2 with
                | x :: y :: a2 :: b2 :: c3 :: d2 :: r3 =>
                  if x = '\\' ∧ y = 'u' ∧ isHex a2 ∧ isHex b2 ∧ isHex c3 ∧ isHex d2 then
                    if 0xDC00 ≤ hexVal a2 * 4096 + hexVal b2 * 256 + hexVal c3 * 16 + hexVal d2 ∧
                        hexVal a2 * 4096 + hexVal b2 * 256 + hexVal c3 * 16 + hexVal d2 ≤ 0xDFFF then
                      consFst (Char.ofNat (0x10000 +
                        (hexVal a * 4096 + hexVal b * 256 + hexVal c2 * 16 + hexVal d - 0xD800) * 1024 +
                        (hexVal a2 * 4096 + hexVal b2 * 256 + hexVal c3 * 16 + hexVal d2 - 0xDC00)))
                        (parseStrAux r3)
                    else none
                  else none
                | _ => none
              else if 0xDC00 ≤ hexVal a * 4096 + hexVal b * 256 + hexVal c2 * 16 + hexVal d ∧
                  hexVal a * 4096 + hexVal b * 256 + hexVal c2 * 16 + hexVal d ≤ 0xDFFF then none
              else consFst
                (Char.ofNat (hexVal a * 4096 + hexVal b * 256 + hexVal c2 * 16 + hexVal d))
                (parseStrAux r2)
            else none
          | _ => none
        else none
    else consFst c (parseStrAux rest)

/-- Read a JSON string literal. -/
def parseStr (input : List Char) : Option (String × List Char) :=
  match input with
  | [] => none
  | c :: rest =>
    if c = '"' then
      match parseStrAux rest with
      | some (cs, rem) => some (String.mk cs, rem)
      | none => none
    else none

/-- Accumulate decimal digits. -/
def parseNatAux : Nat → List Char → Nat × List Char
  | acc, [] => (acc, [])
  | acc, c :: rest =>
    if isDigit c then parseNatAux (acc * 10 + (c.toNat - 48)) rest else (acc, c :: rest)

/-- Read a natural number literal (at least one digit). -/
def parseNat (input : List Char) : Option (Nat × List Char) :=
  match input with
  | [] => none
  | c :: rest => if isDigit c then some (parseNatAux (c.toNat - 48) rest) else none

/-- Read a boolean literal. -/
def parseBool (input : List Char) : Option (Bool × List Char) :=
  match parseExact "true".data input with
  | some r => some (true, r)
  | none =>
    match parseExact "false".data input with
    | some r => some (false, r)
    | none => none

/-- Read one serialized video object. -/
def parseVideo (input : List Char) : Option (FreeTubeVideo × List Char) :=
  match parseExact (['\x7b'] ++ objKey "videoId") input with
  | none => none
  | some r1 =>
  match parseStr r1 with
  | none => none
  | some (videoId, r2) =>
  match parseExact ([','] ++ objKey "title") r2 with
  | none => none
  | some r3 =>
  match parseStr r3 with
  | none => none
  | some (title, r4) =>
  match parseExact ([','] ++ objKey "author") r4 with
  | none => none
  | some r5 =>
  match parseStr r5 with
  | none => none
  | some (author, r6) =>
  match parseExact ([','] ++ objKey "authorId") r6 with
  | none => none
  | some r7 =>
  match parseStr r7 with
  | none => none
  | some (authorId, r8) =>
  match parseExact ([','] ++ objKey "lengthSeconds") r8 with
  | none => none
  | some r9 =>
  match parseNat r9 with
  | none => none
  | some (lengthSeconds, r10) =>
  match parseExact ([','] ++ objKey "published") r10 with
  | none => none
  | some r11 =>
  match parseNat r11 with
  | none => none
  | some (published, r12) =>
  match parseExact ([','] ++ objKey "timeAdded") r12 with
  | none => none
  | some r13 =>
  match parseNat r13 with
  | none => none
  | some (timeAdded, r14) =>
  match parseExact ([','] ++ objKey "playlistItemId") r14 with
  | none => none
  | some r15 =>
  match parseStr r15 with
  | none => none
  | some (playlistItemId, r16) =>
  match parseExact ([','] ++ objKey "type") r16 with
  | none => none
  | some r17 =>
  match parseStr r17 with
  | none => none
  | some (ty, r18) =>
  match parseExact ['\x7d'] r18 with
  | none => none
  | some r19 =>
    some (FreeTubeVideo.mk videoId title author authorId lengthSeconds published
      timeAdded playlistItemId ty, r19)

/-- Read the elements of a non-empty video array (after the opening
bracket), with fuel bounding the number of elements. -/
def parseVideosAux : Nat → List Char → Option (List FreeTubeVideo × List Char)
  | 0, _ => none
  | fuel + 1, input =>
    match parseVideo input with
    | none => none
    | some (v, rem) =>
      match rem with
      | ']' :: r => some ([v], r)
      | ',' :: r =>
        match parseVideosAux fuel r with
        | none => none
        | some (vs, r2) => some (v :: vs, r2)
      | _ => none

/-- Read a video array. -/
def parseVideos (input : List Char) : Option (List FreeTubeVideo × List Char) :=
  match input with
  | [] => none
  | c :: rest =>
    if c = '[' then
      match rest with
      | [] => none
      | d :: r => if d = ']' then some ([], r) else parseVideosAux (d :: r).length (d :: r)
    else none

/-- Read one serialized playlist object — the shape of every line the
database appender writes. -/
def parsePlaylist (input : List Char) : Option (FreeTubePlaylist × List Char) :=
  match parseExact (['\x7b'] ++ objKey "playlistName") input with
  | none => none
  | some r1 =>
  match parseStr r1 with
  | none => none
  | some (playlistName, r2) =>
  match parseExact ([','] ++ objKey "protected") r2 with
  | none => none
  | some r3 =>
  match parseBool r3 with
  | none => none
  | some (prot, r4) =>
  match parseExact ([','] ++ objKey "description") r4 with
  | none => none
  | some r5 =>
  match parseStr r5 with
  | none => none
  | some (description, r6) =>
  match parseExact ([','] ++ objKey "videos") r6 with
  | none => none
  | some r7 =>
  match parseVideos r7 with
  | none => none
  | some (videos, r8) =>
  match parseExact ([','] ++ objKey "_id") r8 with
  | none => none
  | some r9 =>
  match parseStr r9 with
  | none => none
  | some (theId, r10) =>
  match parseExact ([','] ++ objKey "createdAt") r10 with
  | none => none
  | some r11 =>
  match parseNat r11 with
  | none => none
  | some (createdAt, r12) =>
  match parseExact ([','] ++ objKey "lastUpdatedAt") r12 with
  | none => none
  | some r13 =>
  match parseNat r13 with
  | none => none
  | some (lastUpdatedAt, r14) =>
  match parseExact ['\x7d'] r14 with
  | none => none
  | some r15 =>
    some (FreeTubePlaylist.mk playlistName prot description videos theId
      createdAt lastUpdatedAt, r15)

/-! ### Round trip: the reader recovers the serialized playlist -/

theorem char_toNat_lt (c : Char) : c.toNat < 0x110000 := by
  rcases c.valid with h | ⟨_, h2⟩
  · exact h.trans (by norm_num)
  · exact h2

theorem char_not_surrogate (c : Char) : ¬(0xD800 ≤ c.toNat ∧ c.toNat ≤ 0xDFFF) := by
  rcases c.valid with h | ⟨h1, _⟩ <;> simp only [Char.toNat] at * <;> omega

theorem hexDigitChar_spec :
    ∀ d, d < 16 → isHex (hexDigitChar d) = true ∧ hexVal (hexDigitChar d) = d := by
  decide

theorem parseExact_append : ∀ (pat rest : List Char),
    parseExact pat (pat ++ rest) = some rest := by
  intro pat
  induction pat with
  | nil => intro rest; rfl
  | cons p ps ih => intro rest; simp [parseExact, ih]


theorem parseStrAux_quote (k : List Char) : parseStrAux ('"' :: k) = some ([], k) := by
  conv_lhs => rw [parseStrAux.eq_def]
  simp

theorem parseStrAux_plain {c : Char} (h1 : ¬c = '"') (h2 : ¬c = '\\')
    (k : List Char) : parseStrAux (c :: k) = consFst c (parseStrAux k) := by
  conv_lhs => rw [parseStrAux.eq_def]
  simp [h1, h2]

theorem parseStrAux_esc_quote (k : List Char) :
    parseStrAux ('\\' :: '"' :: k) = consFst '"' (parseStrAux k) := by
  conv_lhs => rw [parseStrAux.eq_def]
  simp

theorem parseStrAux_esc_backslash (k : List Char) :
    parseStrAux ('\\' :: '\\' :: k) = consFst '\\' (parseStrAux k) := by
  conv_lhs => rw [parseStrAux.eq_def]
  simp

theorem parseStrAux_esc_b (k : List Char) :
    parseStrAux ('\\' :: 'b' :: k) = consFst '\x08' (parseStrAux k) := by
  conv_lhs => rw [parseStrAux.eq_def]
  simp

theorem parseStrAux_esc_f (k : List Char) :
    parseStrAux ('\\' :: 'f' :: k) = consFst '\x0C' (parseStrAux k) := by
  conv_lhs => rw [parseStrAux.eq_def]
  simp

theorem parseStrAux_esc_n (k : List Char) :
    parseStrAux ('\\' :: 'n' :: k) = consFst '\n' (parseStrAux k) := by
  conv_lhs => rw [parseStrAux.eq_def]
  simp

theorem parseStrAux_esc_r (k : List Char) :
    parseStrAux ('\\' :: 'r' :: k) = consFst '\x0D' (parseStrAux k) := by
  conv_lhs => rw [parseStrAux.eq_def]
  simp

theorem parseStrAux_esc_t (k : List Char) :
    parseStrAux ('\\' :: 't' :: k) = consFst '\x09' (parseStrAux k) := by
  conv_lhs => rw [parseStrAux.eq_def]
  simp

theorem parseStrAux_u_bmp (a b c2 d : Char) (k : List Char)
    (ha : isHex a = true) (hb : isHex b = true) (hc : isHex c2 = true)
    (hd : isHex d = true)
    (hn1 : ¬(0xD800 ≤ hexVal a * 4096 + hexVal b * 256 + hexVal c2 * 16 + hexVal d ∧
      hexVal a * 4096 + hexVal b * 256 + hexVal c2 * 16 + hexVal d ≤ 0xDBFF))
    (hn2 : ¬(0xDC00 ≤ hexVal a * 4096 + hexVal b * 256 + hexVal c2 * 16 + hexVal d ∧
      hexVal a * 4096 + hexVal b * 256 + hexVal c2 * 16 + hexVal d ≤ 0xDFFF)) :
    parseStrAux ('\\' :: 'u' :: a :: b :: c2 :: d :: k) =
      consFst (Char.ofNat (hexVal a * 4096 + hexVal b * 256 + hexVal c2 * 16 + hexVal d))
        (parseStrAux k) := by
  conv_lhs => rw [parseStrAux.eq_def]
  simp [ha, hb, hc, hd, hn1, hn2]

theorem parseStrAux_u_pair (a b c2 d a2 b2 c3 d2 : Char) (k : List Char)
    (ha : isHex a = true) (hb : isHex b = true) (hc : isHex c2 = true)
    (hd : isHex d = true) (ha2 : isHex a2 = true) (hb2 : isHex b2 = true)
    (hc2 : isHex c3 = true) (hd2 : isHex d2 = true)
    (hs1 : 0xD800 ≤ hexVal a * 4096 + hexVal b * 256 + hexVal c2 * 16 + hexVal d ∧
      hexVal a * 4096 + hexVal b * 256 + hexVal c2 * 16 + hexVal d ≤ 0xDBFF)
    (hs2 : 0xDC00 ≤ hexVal a2 * 4096 + hexVal b2 * 256 + hexVal c3 * 16 + hexVal d2 ∧
      hexVal a2 * 4096 + hexVal b2 * 256 + hexVal c3 * 16 + hexVal d2 ≤ 0xDFFF) :
    parseStrAux ('\\' :: 'u' :: a :: b :: c2 :: d :: '\\' :: 'u' :: a2 :: b2 :: c3 :: d2 :: k) =
      consFst (Char.ofNat (0x10000 +
        (hexVal a * 4096 + hexVal b * 256 + hexVal c2 * 16 + hexVal d - 0xD800) * 1024 +
        (hexVal a2 * 4096 + hexVal b2 * 256 + hexVal c3 * 16 + hexVal d2 - 0xDC00)))
        (parseStrAux k) := by
  conv_lhs => rw [parseStrAux.eq_def]
  simp [ha, hb, hc, hd, ha2, hb2, hc2, hd2, hs1.1, hs1.2, hs2.1, hs2.2]

theorem parseStrAux_escape (c : Char) (k : List Char) :
    parseStrAux (escapeChar c ++ k) = consFst c (parseStrAux k) := by
  have hd1 := hexDigitChar_spec (c.toNat / 4096 % 16) (Nat.mod_lt _ (by norm_num))
  have hd2 := hexDigitChar_spec (c.toNat / 256 % 16) (Nat.mod_lt _ (by norm_num))
  have hd3 := hexDigitChar_spec (c.toNat / 16 % 16) (Nat.mod_lt _ (by norm_num))
  have hd4 := hexDigitChar_spec (c.toNat % 16) (Nat.mod_lt _ (by norm_num))
  by_cases h1 : c = '"'
  · subst h1
    rw [show escapeChar '"' = ['\\', '"'] from rfl]
    exact parseStrAux_esc_quote k
  · by_cases h2 : c = '\\'
    · subst h2
      rw [show escapeChar '\\' = ['\\', '\\'] from rfl]
      exact parseStrAux_esc_backslash k
    · by_cases h3 : 0x20 ≤ c.toNat ∧ c.toNat ≤ 0x7E
      · rw [show escapeChar c = [c] from by simp [escapeChar, h1, h2, h3]]
        exact parseStrAux_plain h1 h2 k
      · by_cases h4 : c = '\x08'
        · subst h4
          rw [show escapeChar '\x08' = ['\\', 'b'] from rfl]
          exact parseStrAux_esc_b k
        · by_cases h5 : c = '\x09'
          · subst h5
            rw [show escapeChar '\x09' = ['\\', 't'] from rfl]
            exact parseStrAux_esc_t k
          · by_cases h6 : c = '\n'
            · subst h6
              rw [show escapeChar '\n' = ['\\', 'n'] from rfl]
              exact parseStrAux_esc_n k
            · by_cases h7 : c = '\x0C'
              · subst h7
                rw [show escapeChar '\x0C' = ['\\', 'f'] from rfl]
                exact parseStrAux_esc_f k
              · by_cases h8 : c = '\x0D'
                · subst h8
                  rw [show escapeChar '\x0D' = ['\\', 'r'] from rfl]
                  exact parseStrAux_esc_r k
                · by_cases h9 : c.toNat < 0x10000
                  · -- BMP code point: one `\uXXXX`
                    rw [show escapeChar c = '\\' :: 'u' :: hex4 c.toNat from
                      by simp [escapeChar, h1, h2, h3, h4, h5, h6, h7, h8, h9]]
                    have hns := char_not_surrogate c
                    have hrec : hexVal (hexDigitChar (c.toNat / 4096 % 16)) * 4096 +
                        hexVal (hexDigitChar (c.toNat / 256 % 16)) * 256 +
                        hexVal (hexDigitChar (c.toNat / 16 % 16)) * 16 +
                        hexVal (hexDigitChar (c.toNat % 16)) = c.toNat := by
                      rw [hd1.2, hd2.2, hd3.2, hd4.2]
                      omega
                    show parseStrAux ('\\' :: 'u' :: (hex4 c.toNat ++ k)) = _
                    simp only [hex4, List.cons_append, List.nil_append]
                    rw [parseStrAux_u_bmp _ _ _ _ _ hd1.1 hd2.1 hd3.1 hd4.1
                      (by rw [hrec]; exact fun hp => hns ⟨hp.1, hp.2.trans (by norm_num)⟩)
                      (by rw [hrec]; exact fun hp => hns ⟨le_trans (by norm_num) hp.1, hp.2⟩)]
                    rw [hrec, Char.ofNat_toNat]
                  · -- astral code point: surrogate pair
                    have hlt := char_toNat_lt c
                    rw [show escapeChar c =
                        ('\\' :: 'u' :: hex4 (0xD800 + (c.toNat - 0x10000) / 1024)) ++
                        ('\\' :: 'u' :: hex4 (0xDC00 + (c.toNat - 0x10000) % 1024)) from
                      by simp [escapeChar, h1, h2, h3, h4, h5, h6, h7, h8, h9]]
                    have ha1 := hexDigitChar_spec
                      ((0xD800 + (c.toNat - 0x10000) / 1024) / 4096 % 16)
                      (Nat.mod_lt _ (by norm_num))
                    have ha2 := hexDigitChar_spec
                      ((0xD800 + (c.toNat - 0x10000) / 1024) / 256 % 16)
                      (Nat.mod_lt _ (by norm_num))
                    have ha3 := hexDigitChar_spec
                      ((0xD800 + (c.toNat - 0x10000) / 1024) / 16 % 16)
                      (Nat.mod_lt _ (by norm_num))
                    have ha4 := hexDigitChar_spec
                      ((0xD800 + (c.toNat - 0x10000) / 1024) % 16)
                      (Nat.mod_lt _ (by norm_num))
                    have hb1 := hexDigitChar_spec
                      ((0xDC00 + (c.toNat - 0x10000) % 1024) / 4096 % 16)
                      (Nat.mod_lt _ (by norm_num))
                    have hb2 := hexDigitChar_spec
                      ((0xDC00 + (c.toNat - 0x10000) % 1024) / 256 % 16)
                      (Nat.mod_lt _ (by norm_num))
                    have hb3 := hexDigitChar_spec
                      ((0xDC00 + (c.toNat - 0x10000) % 1024) / 16 % 16)
                      (Nat.mod_lt _ (by norm_num))
                    have hb4 := hexDigitChar_spec
                      ((0xDC00 + (c.toNat - 0x10000) % 1024) % 16)
                      (Nat.mod_lt _ (by norm_num))
                    have hreca : hexVal (hexDigitChar ((0xD800 + (c.toNat - 0x10000) / 1024) / 4096 % 16)) * 4096 +
                        hexVal (hexDigitChar ((0xD800 + (c.toNat - 0x10000) / 1024) / 256 % 16)) * 256 +
                        hexVal (hexDigitChar ((0xD800 + (c.toNat - 0x10000) / 1024) / 16 % 16)) * 16 +
                        hexVal (hexDigitChar ((0xD800 + (c.toNat - 0x10000) / 1024) % 16)) =
                        0xD800 + (c.toNat - 0x10000) / 1024 := by
                      rw [ha1.2, ha2.2, ha3.2, ha4.2]
                      omega
                    have hrecb : hexVal (hexDigitChar ((0xDC00 + (c.toNat - 0x10000) % 1024) / 4096 % 16)) * 4096 +
                        hexVal (hexDigitChar ((0xDC00 + (c.toNat - 0x10000) % 1024) / 256 % 16)) * 256 +
                        hexVal (hexDigitChar ((0xDC00 + (c.toNat - 0x10000) % 1024) / 16 % 16)) * 16 +
                        hexVal (hexDigitChar ((0xDC00 + (c.toNat - 0x10000) % 1024) % 16)) =
                        0xDC00 + (c.toNat - 0x10000) % 1024 := by
                      rw [hb1.2, hb2.2, hb3.2, hb4.2]
                      omega
                    show parseStrAux ((('\\' :: 'u' :: hex4 (0xD800 + (c.toNat - 0x10000) / 1024)) ++
                        ('\\' :: 'u' :: hex4 (0xDC00 + (c.toNat - 0x10000) % 1024))) ++ k) = _
                    simp only [hex4, List.cons_append, List.nil_append, List.append_assoc]
                    rw [parseStrAux_u_pair _ _ _ _ _ _ _ _ _
                      ha1.1 ha2.1 ha3.1 ha4.1 hb1.1 hb2.1 hb3.1 hb4.1
                      (by rw [hreca]; omega) (by rw [hrecb]; omega)]
                    rw [hreca, hrecb]
                    have harg : 0x10000 + (0xD800 + (c.toNat - 0x10000) / 1024 - 0xD800) * 1024 +
                        (0xDC00 + (c.toNat - 0x10000) % 1024 - 0xDC00) = c.toNat := by
                      omega
                    rw [harg, Char.ofNat_toNat]

theorem parseStrAux_flatMap : ∀ (s rest : List Char),
    parseStrAux (s.flatMap escapeChar ++ '"' :: rest) = some (s, rest) := by
  intro s
  induction s with
  | nil => intro rest; simpa using parseStrAux_quote rest
  | cons c s ih =>
    intro rest
    show parseStrAux ((escapeChar c ++ s.flatMap escapeChar) ++ '"' :: rest) = _
    rw [List.append_assoc, parseStrAux_escape, ih]
    rfl

theorem parseStr_ser (s : String) (rest : List Char) :
    parseStr (serStr s ++ rest) = some (s, rest) := by
  show parseStr (('"' :: (s.data.flatMap escapeChar ++ ['"'])) ++ rest) = _
  rw [List.cons_append, List.append_assoc, List.singleton_append]
  unfold parseStr
  simp only [if_pos rfl, parseStrAux_flatMap]
  simp

theorem digitChar_spec :
    ∀ d, d < 10 → isDigit (digitChar d) = true ∧ (digitChar d).toNat = 48 + d := by
  decide

theorem natDigits_all_digits :
    ∀ (fuel n : Nat), ∀ c ∈ natDigits fuel n, isDigit c = true := by
  intro fuel
  induction fuel with
  | zero => intro n c hc; simp [natDigits] at hc
  | succ fuel ih =>
    intro n c hc
    unfold natDigits at hc
    by_cases hn : n = 0
    · simp [hn] at hc
    · rw [if_neg hn] at hc
      rcases List.mem_append.mp hc with hc | hc
      · exact ih _ c hc
      · rcases List.mem_singleton.mp hc with rfl
        exact (digitChar_spec (n % 10) (Nat.mod_lt _ (by norm_num))).1

theorem natDigits_ne_nil (fuel n : Nat) (h0 : 0 < n) (hf : n ≤ fuel) :
    natDigits fuel n ≠ [] := by
  cases fuel with
  | zero => omega
  | succ fuel =>
    unfold natDigits
    rw [if_neg (by omega)]
    simp

theorem parseNatAux_digits :
    ∀ (ds : List Char) (acc : Nat) (rest : List Char),
      (∀ c ∈ ds, isDigit c = true) →
      (∀ d r2, rest = d :: r2 → isDigit d = false) →
      parseNatAux acc (ds ++ rest) =
        (ds.foldl (fun a c => a * 10 + (c.toNat - 48)) acc, rest) := by
  intro ds
  induction ds with
  | nil =>
    intro acc rest _ hrest
    cases rest with
    | nil => rfl
    | cons d r2 =>
      show parseNatAux acc (d :: r2) = _
      unfold parseNatAux
      rw [hrest d r2 rfl]
      simp
  | cons c ds ih =>
    intro acc rest hds hrest
    show parseNatAux acc (c :: (ds ++ rest)) = _
    unfold parseNatAux
    rw [hds c (List.mem_cons_self c ds)]
    simp only [if_true]
    rw [ih _ rest (fun x hx => hds x (List.mem_cons_of_mem c hx)) hrest]
    rfl

theorem natDigits_foldl :
    ∀ (fuel n acc : Nat), n ≤ fuel →
      (natDigits fuel n).foldl (fun a c => a * 10 + (c.toNat - 48)) acc =
        acc * 10 ^ (natDigits fuel n).length + n := by
  intro fuel
  induction fuel with
  | zero =>
    intro n acc h
    have : n = 0 := by omega
    simp [natDigits, this]
  | succ fuel ih =>
    intro n acc h
    by_cases hn : n = 0
    · simp [natDigits, hn]
    · have hstep : natDigits (fuel + 1) n =
          natDigits fuel (n / 10) ++ [digitChar (n % 10)] := by
        rw [show natDigits (fuel + 1) n = if n = 0 then [] else
          natDigits fuel (n / 10) ++ [digitChar (n % 10)] from rfl, if_neg hn]
      rw [hstep, List.foldl_append]
      have hq : n / 10 ≤ fuel := by
        have := Nat.div_lt_self (Nat.pos_of_ne_zero hn) (by norm_num : 1 < 10)
        omega
      rw [ih (n / 10) acc hq]
      have hdg := (digitChar_spec (n % 10) (Nat.mod_lt _ (by norm_num))).2
      simp only [List.foldl_cons, List.foldl_nil, hdg]
      rw [List.length_append, List.length_singleton, pow_succ]
      have hmod : 48 + n % 10 - 48 = n % 10 := by omega
      rw [hmod]
      have hdm := Nat.div_add_mod n 10
      ring_nf
      omega

theorem parseNat_natToChars (n : Nat) (rest : List Char)
    (hrest : ∀ d r2, rest = d :: r2 → isDigit d = false) :
    parseNat (natToChars n ++ rest) = some (n, rest) := by
  by_cases hn : n = 0
  · subst hn
    show parseNat ('0' :: rest) = _
    unfold parseNat
    show (if isDigit '0' = true then some (parseNatAux ('0'.toNat - 48) rest) else none) = _
    rw [if_pos (by decide)]
    cases rest with
    | nil => rfl
    | cons d r2 =>
      show some (parseNatAux ('0'.toNat - 48) (d :: r2)) = _
      unfold parseNatAux
      rw [hrest d r2 rfl]
      simp
  · have hnat : natToChars n = natDigits n n := by
      unfold natToChars
      rw [if_neg hn]
    have hne := natDigits_ne_nil n n (Nat.pos_of_ne_zero hn) (le_refl n)
    rw [hnat]
    obtain ⟨d, ds, hds⟩ := List.exists_cons_of_ne_nil hne
    rw [hds]
    show parseNat (d :: (ds ++ rest)) = _
    unfold parseNat
    have hdall := natDigits_all_digits n n
    rw [hds] at hdall
    show (if isDigit d = true then
      some (parseNatAux (d.toNat - 48) (ds ++ rest)) else none) = _
    rw [if_pos (hdall d (List.mem_cons_self d ds))]
    rw [parseNatAux_digits ds (d.toNat - 48) rest
      (fun c hc => hdall c (List.mem_cons_of_mem d hc)) hrest]
    have hfold := natDigits_foldl n n 0 (le_refl n)
    rw [hds, List.foldl_cons] at hfold
    simp only [Nat.zero_mul, Nat.zero_add, one_mul] at hfold
    rw [hfold]

theorem parseNat_comma (n : Nat) (r : List Char) :
    parseNat (natToChars n ++ (',' :: r)) = some (n, ',' :: r) := by
  apply parseNat_natToChars
  intro d r2 h
  injection h with h1 _
  rw [← h1]
  decide

theorem parseNat_rbrace (n : Nat) (r : List Char) :
    parseNat (natToChars n ++ ('\x7d' :: r)) = some (n, '\x7d' :: r) := by
  apply parseNat_natToChars
  intro d r2 h
  injection h with h1 _
  rw [← h1]
  decide

theorem parseBool_ser (b : Bool) (rest : List Char) :
    parseBool (serBool b ++ rest) = some (b, rest) := by
  cases b
  · show parseBool ("false".data ++ rest) = _
    unfold parseBool
    rw [show parseExact "true".data ("false".data ++ rest) = none from rfl]
    rw [parseExact_append]
  · show parseBool ("true".data ++ rest) = _
    unfold parseBool
    rw [parseExact_append]

theorem parseExact_cons_append (c : Char) (pat rest : List Char) :
    parseExact (c :: pat) (c :: (pat ++ rest)) = some rest := by
  unfold parseExact
  simp [parseExact_append]

theorem parseExact_single (c : Char) (rest : List Char) :
    parseExact [c] (c :: rest) = some rest := by
  unfold parseExact
  simp [parseExact]

theorem parseVideo_ser (v : FreeTubeVideo) (rest : List Char) :
    parseVideo (serVideo v ++ rest) = some (v, rest) := by
  unfold parseVideo serVideo
  simp only [List.cons_append, List.nil_append, List.append_assoc]
  simp only [parseExact_cons_append, parseExact_single, parseStr_ser,
    parseNat_comma, parseNat_rbrace]

theorem serVideo_head (v : FreeTubeVideo) : ∃ t, serVideo v = '\x7b' :: t := by
  unfold serVideo
  simp only [List.append_assoc, List.cons_append, List.nil_append]
  exact ⟨_, rfl⟩

theorem commaSep_serVideo_head (v : FreeTubeVideo) (vs : List FreeTubeVideo) :
    ∃ t, commaSep ((v :: vs).map serVideo) = '\x7b' :: t := by
  obtain ⟨t, ht⟩ := serVideo_head v
  cases vs with
  | nil =>
    rw [show commaSep ([v].map serVideo) = serVideo v from rfl, ht]
    exact ⟨t, rfl⟩
  | cons w ws =>
    rw [show commaSep ((v :: w :: ws).map serVideo) =
      serVideo v ++ ',' :: commaSep ((w :: ws).map serVideo) from rfl, ht,
      List.cons_append]
    exact ⟨_, rfl⟩

theorem commaSep_serVideo_length :
    ∀ (vs : List FreeTubeVideo), vs.length ≤ (commaSep (vs.map serVideo)).length := by
  intro vs
  induction vs with
  | nil => simp [commaSep]
  | cons v vs ih =>
    obtain ⟨t, ht⟩ := serVideo_head v
    cases vs with
    | nil =>
      show 1 ≤ (commaSep [serVideo v]).length
      rw [show commaSep [serVideo v] = serVideo v from rfl, ht]
      simp
    | cons w ws =>
      show (v :: w :: ws).length ≤
        (commaSep (serVideo v :: (w :: ws).map serVideo)).length
      rw [show commaSep (serVideo v :: (w :: ws).map serVideo) =
        serVideo v ++ ',' :: commaSep ((w :: ws).map serVideo) from rfl, ht]
      simp only [List.length_append, List.length_cons]
      simp only [List.length_cons] at ih ⊢
      omega

theorem parseVideosAux_ser :
    ∀ (vs : List FreeTubeVideo) (fuel : Nat) (rest : List Char),
      vs ≠ [] → vs.length ≤ fuel →
      parseVideosAux fuel (commaSep (vs.map serVideo) ++ ']' :: rest) =
        some (vs, rest) := by
  intro vs
  induction vs with
  | nil => intro fuel rest h _; exact absurd rfl h
  | cons v vs ih =>
    intro fuel rest _ hlen
    cases fuel with
    | zero => simp at hlen
    | succ fuel =>
      cases vs with
      | nil =>
        rw [show commaSep ([v].map serVideo) = serVideo v from rfl]
        conv_lhs => rw [parseVideosAux.eq_def]
        simp [parseVideo_ser]
      | cons w ws =>
        rw [show commaSep ((v :: w :: ws).map serVideo) =
          serVideo v ++ ',' :: commaSep ((w :: ws).map serVideo) from rfl]
        rw [List.append_assoc, List.cons_append]
        conv_lhs => rw [parseVideosAux.eq_def]
        simp only [parseVideo_ser]
        have hrec := ih fuel rest (by simp) (by simp at hlen ⊢; omega)
        simp only [List.map_cons] at hrec
        simp [hrec]

theorem parseVideos_ser (vs : List FreeTubeVideo) (rest : List Char) :
    parseVideos (serVideos vs ++ rest) = some (vs, rest) := by
  cases vs with
  | nil =>
    show parseVideos (('[' :: (commaSep [] ++ [']'])) ++ rest) = _
    rw [show (('[' :: (commaSep [] ++ [']'])) ++ rest : List Char) =
      '[' :: ']' :: rest from rfl]
    show (if '[' = '[' then
        (if ']' = ']' then some (([] : List FreeTubeVideo), rest)
         else parseVideosAux (']' :: rest).length (']' :: rest))
      else none) = _
    rw [if_pos rfl, if_pos rfl]
  | cons v vs2 =>
    obtain ⟨t, ht⟩ := commaSep_serVideo_head v vs2
    show parseVideos (('[' :: (commaSep ((v :: vs2).map serVideo) ++ [']'])) ++ rest) = _
    rw [List.cons_append, List.append_assoc, List.singleton_append, ht,
      List.cons_append]
    show (if '[' = '[' then
        (if '\x7b' = ']' then some (([] : List FreeTubeVideo), t ++ ']' :: rest)
         else parseVideosAux ('\x7b' :: (t ++ ']' :: rest)).length
           ('\x7b' :: (t ++ ']' :: rest)))
      else none) = _
    rw [if_pos rfl, if_neg (by decide)]
    rw [show ('\x7b' :: (t ++ ']' :: rest) : List Char) =
      commaSep ((v :: vs2).map serVideo) ++ ']' :: rest from by rw [ht]; rfl]
    rw [parseVideosAux_ser (v :: vs2) _ rest (by simp) ?_]
    have hcl := commaSep_serVideo_length (v :: vs2)
    simp only [List.length_cons, List.length_append] at hcl ⊢
    omega

theorem parsePlaylist_ser (pl : FreeTubePlaylist) (rest : List Char) :
    parsePlaylist (serPlaylist pl ++ rest) = some (pl, rest) := by
  unfold parsePlaylist serPlaylist
  simp only [List.cons_append, List.nil_append, List.append_assoc]
  simp only [parseExact_cons_append, parseExact_single, parseStr_ser,
    parseBool_ser, parseVideos_ser, parseNat_comma, parseNat_rbrace]

/-! ### The written line contains no newline -/

/-- Every character the JSON serializer emits is visible ASCII
(code point at least 32). -/
def pGe (c : Char) : Bool := decide (32 ≤ c.toNat)

theorem pGe_hexDigit : ∀ d, d < 16 → pGe (hexDigitChar d) = true := by decide

theorem escapeChar_all (c : Char) : (escapeChar c).all pGe = true := by
  unfold escapeChar
  split_ifs with h1 h2 h3 h4 h5 h6 h7 h8 h9
  · decide
  · decide
  · simp only [List.all_cons, List.all_nil, Bool.and_true, pGe]
    simp only [decide_eq_true_eq]
    omega
  · decide
  · decide
  · decide
  · decide
  · decide
  · simp only [hex4, List.all_cons, List.all_nil, Bool.and_true]
    rw [pGe_hexDigit _ (Nat.mod_lt _ (by norm_num)),
      pGe_hexDigit _ (Nat.mod_lt _ (by norm_num)),
      pGe_hexDigit _ (Nat.mod_lt _ (by norm_num)),
      pGe_hexDigit _ (Nat.mod_lt _ (by norm_num))]
    decide
  · simp only [hex4, List.cons_append, List.nil_append, List.all_cons,
      List.all_append, List.all_nil, Bool.and_true]
    rw [pGe_hexDigit _ (Nat.mod_lt _ (by norm_num)),
      pGe_hexDigit _ (Nat.mod_lt _ (by norm_num)),
      pGe_hexDigit _ (Nat.mod_lt _ (by norm_num)),
      pGe_hexDigit _ (Nat.mod_lt _ (by norm_num)),
      pGe_hexDigit _ (Nat.mod_lt _ (by norm_num)),
      pGe_hexDigit _ (Nat.mod_lt _ (by norm_num)),
      pGe_hexDigit _ (Nat.mod_lt _ (by norm_num)),
      pGe_hexDigit _ (Nat.mod_lt _ (by norm_num))]
    decide

theorem serStr_all (s : String) : (serStr s).all pGe = true := by
  unfold serStr
  simp only [List.all_cons, List.all_append, List.all_nil]
  refine Bool.and_eq_true_iff.mpr ⟨by decide, Bool.and_eq_true_iff.mpr ⟨?_, by decide⟩⟩
  apply List.all_eq_true.mpr
  intro x hx
  rcases List.mem_flatMap.mp hx with ⟨a, _, hxa⟩
  exact List.all_eq_true.mp (escapeChar_all a) x hxa

theorem objKey_all (s : String) : (objKey s).all pGe = true := by
  unfold objKey
  simp only [List.all_append, serStr_all]
  decide

theorem natToChars_all (n : Nat) : (natToChars n).all pGe = true := by
  apply List.all_eq_true.mpr
  intro x hx
  have hd : isDigit x = true := by
    unfold natToChars at hx
    by_cases hn : n = 0
    · rw [if_pos hn] at hx
      rcases List.mem_singleton.mp hx with rfl
      decide
    · rw [if_neg hn] at hx
      exact natDigits_all_digits n n x hx
  simp only [isDigit, decide_eq_true_eq] at hd
  simp only [pGe, decide_eq_true_eq]
  omega

theorem serBool_all (b : Bool) : (serBool b).all pGe = true := by
  cases b <;> decide

theorem serVideo_all (v : FreeTubeVideo) : (serVideo v).all pGe = true := by
  unfold serVideo
  simp only [List.all_append, List.all_cons, List.all_nil, serStr_all,
    objKey_all, natToChars_all, Bool.and_true, Bool.true_and, Bool.and_self]
  decide

theorem commaSep_all (ls : List (List Char)) (h : ∀ l ∈ ls, l.all pGe = true) :
    (commaSep ls).all pGe = true := by
  induction ls with
  | nil => decide
  | cons l ls ih =>
    cases ls with
    | nil =>
      rw [show commaSep [l] = l from rfl]
      exact h l (List.mem_singleton.mpr rfl)
    | cons l2 ls2 =>
      rw [show commaSep (l :: l2 :: ls2) = l ++ ',' :: commaSep (l2 :: ls2) from rfl]
      simp only [List.all_append, List.all_cons]
      rw [h l (List.mem_cons_self _ _), ih (fun x hx => h x (List.mem_cons_of_mem _ hx))]
      decide

theorem serVideos_all (vs : List FreeTubeVideo) : (serVideos vs).all pGe = true := by
  unfold serVideos
  simp only [List.all_cons, List.all_append, List.all_nil]
  rw [commaSep_all (vs.map serVideo) ?_]
  · decide
  · intro l hl
    rcases List.mem_map.mp hl with ⟨v, _, rfl⟩
    exact serVideo_all v

theorem serPlaylist_all (pl : FreeTubePlaylist) : (serPlaylist pl).all pGe = true := by
  unfold serPlaylist
  simp only [List.all_append, List.all_cons, List.all_nil, serStr_all,
    objKey_all, natToChars_all, serBool_all, serVideos_all, Bool.and_true,
    Bool.true_and, Bool.and_self]
  decide

theorem serPlaylist_no_newline (pl : FreeTubePlaylist) : '\n' ∉ serPlaylist pl := by
  intro hmem
  have := List.all_eq_true.mp (serPlaylist_all pl) _ hmem
  simp [pGe] at this

/-! ### The append-only write discipline -/

/-- The file operations `export_freetube_db` can perform on the database
handle. -/
inductive FileOp where
  | openAppendMode : FileOp
  | write : List Char → FileOp
  | fileFlush : FileOp
  | fileFsync : FileOp
  | close : FileOp
deriving DecidableEq

/-- Replay a trace against a file opened in append mode: writes append,
everything else leaves the contents unchanged (nothing can truncate). -/
def runOps (content : List Char) (ops : List FileOp) : List Char :=
  ops.foldl (fun c op =>
    match op with
    | FileOp.write d => c ++ d
    | _ => c) content

/-- The trace of `export_freetube_db` (source lines 276-280): open for
append, `json.dump` the minified object, write the newline, flush, fsync,
close. -/
def export_freetube_db_ops (pl : FreeTubePlaylist) : List FileOp :=
  [FileOp.openAppendMode, FileOp.write (serPlaylist pl), FileOp.write ['\n'],
   FileOp.fileFlush, FileOp.fileFsync, FileOp.close]

/-- Python `export_freetube_db` as a function on the database file contents. -/
def export_freetube_db (content : List Char) (pl : FreeTubePlaylist) : List Char :=
  runOps content (export_freetube_db_ops pl)

/-- Split file contents at newline characters (the newline-delimited-JSON
reading discipline). -/
def splitNl : List Char → List (List Char)
  | [] => [[]]
  | c :: rest =>
    if c = '\n' then [] :: splitNl rest
    else
      match splitNl rest with
      | [] => [[c]]
      | r :: rs => (c :: r) :: rs

theorem splitNl_ne_nil : ∀ (l : List Char), splitNl l ≠ [] := by
  intro l
  cases l with
  | nil => simp [splitNl]
  | cons c rest =>
    unfold splitNl
    by_cases h : c = '\n'
    · simp [h]
    · rw [if_neg h]
      cases splitNl rest <;> simp

theorem splitNl_append (l : List Char) (rest : List Char) (hl : '\n' ∉ l) :
    splitNl (l ++ '\n' :: rest) = l :: splitNl rest := by
  induction l with
  | nil =>
    show splitNl ('\n' :: rest) = [] :: splitNl rest
    conv_lhs => rw [splitNl.eq_def]
    simp
  | cons c l ih =>
    have hc : ¬ c = '\n' := fun he => hl (he ▸ List.mem_cons_self c l)
    have hl2 : '\n' ∉ l := fun hm => hl (List.mem_cons_of_mem c hm)
    show splitNl (c :: (l ++ '\n' :: rest)) = _
    conv_lhs => rw [splitNl.eq_def]
    simp only [hc, if_false, ih hl2]

/-- C1: the database exporter only appends. Writing playlist `p1` and then
`p2` to a file with prior contents `c0` leaves `c0` unchanged and appends
exactly one newline-terminated minified JSON line per playlist; the appended
region splits at newlines into exactly the two serialized lines; each line
is independently parseable, recovering exactly its playlist record; and the
operation trace ends with flush, fsync, close after the writes (there is no
truncating operation). -/
theorem C1_export_freetube_db_appends (c0 : List Char) (p1 p2 : FreeTubePlaylist) :
    (export_freetube_db c0 p1 = c0 ++ serPlaylist p1 ++ ['\n']) ∧
    (export_freetube_db (export_freetube_db c0 p1) p2 =
      c0 ++ (serPlaylist p1 ++ '\n' :: (serPlaylist p2 ++ ['\n']))) ∧
    ('\n' ∉ serPlaylist p1 ∧ '\n' ∉ serPlaylist p2) ∧
    (splitNl ((export_freetube_db (export_freetube_db c0 p1) p2).drop c0.length) =
      [serPlaylist p1, serPlaylist p2, []]) ∧
    (parsePlaylist (serPlaylist p1) = some (p1, []) ∧
      parsePlaylist (serPlaylist p2) = some (p2, [])) ∧
    (export_freetube_db_ops p1 =
      [FileOp.openAppendMode, FileOp.write (serPlaylist p1), FileOp.write ['\n'],
       FileOp.fileFlush, FileOp.fileFsync, FileOp.close]) := by
  have h1 : export_freetube_db c0 p1 = c0 ++ serPlaylist p1 ++ ['\n'] := rfl
  have h2 : export_freetube_db (export_freetube_db c0 p1) p2 =
      c0 ++ (serPlaylist p1 ++ '\n' :: (serPlaylist p2 ++ ['\n'])) := by
    show ((c0 ++ serPlaylist p1 ++ ['\n']) ++ serPlaylist p2 ++ ['\n']) = _
    simp [List.append_assoc]
  refine ⟨h1, h2, ⟨serPlaylist_no_newline p1, serPlaylist_no_newline p2⟩, ?_, ?_, rfl⟩
  · rw [h2, List.drop_left]
    rw [splitNl_append _ _ (serPlaylist_no_newline p1)]
    rw [show (serPlaylist p2 ++ ['\n'] : List Char) =
      serPlaylist p2 ++ '\n' :: [] from rfl]
    rw [splitNl_append _ _ (serPlaylist_no_newline p2)]
    rfl
  · constructor
    · have := parsePlaylist_ser p1 []
      rwa [List.append_nil] at this
    · have := parsePlaylist_ser p2 []
      rwa [List.append_nil] at this
